import Mathlib

/-!
Verification of the Pickle Reef gateway backend: a shallow embedding of the
module state-reconciliation and derived-telemetry engine
(backend/app/services and backend/app/api), with theorems settling the
frozen specification claims.

Payload trees on the wire are loosely typed JSON-like values; we embed them
as the inductive `JVal`, with Python dicts as insertion-ordered association
lists and Python numbers (int and float) as exact rationals.
-/

/-- A JSON-like value as received from module firmware.  Python dicts are
modelled as insertion-ordered association lists of key-value pairs and
Python numbers as exact rationals. -/
inductive JVal where
  | null : JVal
  | bool : Bool → JVal
  | num : ℚ → JVal
  | str : String → JVal
  | arr : List JVal → JVal
  | obj : List (String × JVal) → JVal

/-- A Python dict: an insertion-ordered association list. -/
abbrev Obj := List (String × JVal)

/-- Python `d.get(k)`: the value at the first matching key, if present. -/
def objGet (o : Obj) (k : String) : Option JVal :=
  (o.find? (fun p => p.1 = k)).map (fun p => p.2)

/-- Python `k in d`. -/
def objHas (o : Obj) (k : String) : Bool :=
  o.any (fun p => p.1 = k)

/-- Python `d[k] = v`: replace the value at the existing key in place
(dict keys are unique), else append the new pair at the end (insertion
order is preserved). -/
def objSet : Obj → String → JVal → Obj
  | [], k, v => [(k, v)]
  | p :: rest, k, v =>
      if p.1 = k then (k, v) :: rest else p :: objSet rest k v

/-- Python `d.setdefault(k, v)`: insert only when the key is absent. -/
def objSetdefault (o : Obj) (k : String) (v : JVal) : Obj :=
  if objHas o k then o else o ++ [(k, v)]

/-- Python dict unpacking over two dicts: keys of the first dict keep their
position but values are overridden by the second dict where present; keys
only present in the second dict are appended in its order. -/
def objMergePy (a b : Obj) : Obj :=
  a.map (fun p =>
    match objGet b p.1 with
    | some v => (p.1, v)
    | none => p) ++
  b.filter (fun p => !objHas a p.1)

/-- Python truthiness of a JSON value: None, False, 0, the empty string and
empty containers are falsy. -/
def truthy : JVal → Bool
  | .null => false
  | .bool b => b
  | .num q => !(q == 0)
  | .str s => !(s == "")
  | .arr xs => !xs.isEmpty
  | .obj fs => !fs.isEmpty

/-- Structural equality of JSON values, the backbone of the model of
Python value equality. -/
def jeq : JVal → JVal → Bool
  | .null, .null => true
  | .bool a, .bool b => a == b
  | .num a, .num b => a == b
  | .str a, .str b => a == b
  | .arr [], .arr [] => true
  | .arr (x :: xs), .arr (y :: ys) => jeq x y && jeq (.arr xs) (.arr ys)
  | .obj [], .obj [] => true
  | .obj ((k, v) :: xs), .obj ((k2, v2) :: ys) =>
      k == k2 && jeq v v2 && jeq (.obj xs) (.obj ys)
  | _, _ => false

/-- Numeric reading Python applies when comparing with `==`: booleans count
as 0 and 1 and ints and floats compare by value. -/
def jnumOf : JVal → Option ℚ
  | .num q => some q
  | .bool b => some (if b then 1 else 0)
  | _ => none

/-- Model of Python `==` between payload values: numbers and booleans
compare numerically, everything else structurally. -/
def pyEq (a b : JVal) : Bool :=
  match jnumOf a, jnumOf b with
  | some x, some y => x == y
  | _, _ => jeq a b

theorem jeq_refl (v : JVal) : jeq v v = true := by
  suffices H : ∀ (n : ℕ) (w : JVal), sizeOf w ≤ n → jeq w w = true from
    H (sizeOf v) v le_rfl
  intro n
  induction n with
  | zero =>
    intro w h
    exfalso
    cases w <;> simp_all
  | succ n ih =>
    intro w h
    match w with
    | .null => simp [jeq]
    | .bool b => simp [jeq]
    | .num q => simp [jeq]
    | .str s => simp [jeq]
    | .arr [] => simp [jeq]
    | .arr (x :: xs) =>
      have hx : sizeOf x ≤ n := by simp at h; omega
      have hxs : sizeOf (JVal.arr xs) ≤ n := by simp at h ⊢; omega
      simp [jeq, ih x hx, ih (JVal.arr xs) hxs]
    | .obj [] => simp [jeq]
    | .obj ((k, v') :: xs) =>
      have hv : sizeOf v' ≤ n := by simp at h; omega
      have hxs : sizeOf (JVal.obj xs) ≤ n := by simp at h ⊢; omega
      simp [jeq, ih v' hv, ih (JVal.obj xs) hxs]

theorem pyEq_refl (v : JVal) : pyEq v v = true := by
  unfold pyEq
  cases h : jnumOf v <;> simp [jeq_refl]

theorem objGet_none_iff (o : Obj) (k : String) :
    objGet o k = none ↔ objHas o k = false := by
  induction o with
  | nil => simp [objGet, objHas]
  | cons p rest ih =>
    by_cases hp : p.1 = k
    · simp [objGet, objHas, List.find?, hp]
    · simpa [objGet, objHas, List.find?, hp] using ih

theorem objHas_iff_isSome (o : Obj) (k : String) :
    objHas o k = true ↔ (objGet o k).isSome = true := by
  rcases h : objGet o k with _ | v
  · rw [objGet_none_iff] at h
    simp [h]
  · have : ¬ objGet o k = none := by simp [h]
    rw [objGet_none_iff] at this
    simp at this
    simp [this]

theorem objGet_append (a b : Obj) (k : String) :
    objGet (a ++ b) k = (objGet a k).orElse (fun _ => objGet b k) := by
  induction a with
  | nil => simp [objGet]
  | cons p rest ih =>
    by_cases hp : p.1 = k
    · simp [objGet, List.find?, hp]
    · simpa [objGet, List.find?, hp] using ih

theorem objGet_filter_key (o : Obj) (g : String → Bool) (k : String) :
    objGet (o.filter (fun p => g p.1)) k =
      if g k then objGet o k else none := by
  induction o with
  | nil => by_cases hg : g k <;> simp [objGet, hg]
  | cons p rest ih =>
    rcases p with ⟨pk, pv⟩
    by_cases hpk : pk = k
    · subst hpk
      by_cases hg : g pk
      · simp [objGet, List.filter, hg, List.find?]
      · have hgf : g pk = false := by simpa using hg
        simp only [List.filter, hgf]
        rw [ih, hgf]
        simp
    · by_cases hg : g pk
      · simp only [List.filter, hg]
        simp only [objGet, List.find?] at ih ⊢
        have h2 : (decide ((pk, pv).1 = k)) = false := by simpa using hpk
        simp only [h2]
        by_cases hgk : g k
        · simpa [hgk] using ih
        · simpa [hgk] using ih
      · have hgf : g pk = false := by simpa using hg
        simp only [List.filter, hgf]
        rw [ih]
        by_cases hgk : g k
        · simp only [hgk, if_true]
          simp only [objGet, List.find?]
          have h2 : (decide ((pk, pv).1 = k)) = false := by simpa using hpk
          simp [h2]
        · simp [hgk]

theorem objHas_false_of_get_none (o : Obj) (k : String)
    (h : objGet o k = none) : objHas o k = false :=
  (objGet_none_iff o k).mp h

theorem objGet_objSet_self (o : Obj) (k : String) (v : JVal) :
    objGet (objSet o k v) k = some v := by
  induction o with
  | nil => simp [objSet, objGet, List.find?]
  | cons p rest ih =>
    by_cases hp : p.1 = k
    · simp [objSet, hp, objGet, List.find?]
    · simpa [objSet, hp, objGet, List.find?] using ih

theorem objGet_objSet_ne (o : Obj) (k k' : String) (v : JVal) (h : k' ≠ k) :
    objGet (objSet o k v) k' = objGet o k' := by
  induction o with
  | nil =>
    have hne : (decide (k = k')) = false :=
      decide_eq_false (fun hc => h hc.symm)
    simp [objSet, objGet, List.find?, hne]
  | cons p rest ih =>
    by_cases hp : p.1 = k
    · have hne : (decide (k = k')) = false :=
        decide_eq_false (fun hc => h hc.symm)
      have hpne : (decide (p.1 = k')) = false := by
        rw [hp]; exact hne
      simp [objSet, hp, objGet, List.find?, hne, hpne]
    · by_cases hp' : p.1 = k'
      · simp [objSet, hp, objGet, List.find?, hp', h]
      · simpa [objSet, hp, objGet, List.find?, hp'] using ih

theorem objGet_objSetdefault (o : Obj) (k k' : String) (v : JVal) :
    objGet (objSetdefault o k v) k' =
      (objGet o k').orElse (fun _ => if k' = k then some v else none) := by
  unfold objSetdefault
  by_cases hh : objHas o k = true
  · rw [if_pos hh]
    rcases hg : objGet o k' with _ | w
    · by_cases hk : k' = k
      · rw [hk] at hg
        rw [objGet_none_iff] at hg
        rw [hg] at hh
        cases hh
      · simp [hg, hk, Option.orElse]
    · simp [hg, Option.orElse]
  · have hfalse : objHas o k = false := by simpa using hh
    rw [if_neg (by simp [hfalse]), objGet_append]
    by_cases hk : k' = k
    · simp [hk, objGet, List.find?]
    · have hd : (decide (k = k')) = false :=
        decide_eq_false (fun hc => hk hc.symm)
      have hsingle : objGet [(k, v)] k' = none := by
        simp [objGet, List.find?, hd]
      rw [hsingle, if_neg hk]

theorem objGet_map_mergefun (a b : Obj) (k : String) :
    objGet (a.map (fun p =>
      match objGet b p.1 with
      | some v => (p.1, v)
      | none => p)) k =
      match objGet a k, objGet b k with
      | some _, some vb => some vb
      | some va, none => some va
      | none, _ => none := by
  induction a with
  | nil => simp [objGet]
  | cons p rest ih =>
    rcases p with ⟨pk, pv⟩
    rcases hb : objGet b pk with _ | vb
    · by_cases hpk : pk = k
      · subst hpk
        simp only [List.map_cons, hb]
        simp [objGet, List.find?, hb]
      · have h2 : (decide ((pk, pv).1 = k)) = false :=
          decide_eq_false (by simpa using hpk)
        simp only [List.map_cons, hb]
        simp only [objGet, List.find?, h2] at ih ⊢
        exact ih
    · by_cases hpk : pk = k
      · subst hpk
        simp only [List.map_cons, hb]
        simp [objGet, List.find?, hb]
      · have h2 : (decide ((pk, pv).1 = k)) = false :=
          decide_eq_false (by simpa using hpk)
        have h3 : (decide ((pk, vb).1 = k)) = false :=
          decide_eq_false (by simpa using hpk)
        simp only [List.map_cons, hb]
        simp only [objGet, List.find?, h2, h3] at ih ⊢
        exact ih

theorem objGet_objMergePy (a b : Obj) (k : String) :
    objGet (objMergePy a b) k =
      if objHas b k then objGet b k else objGet a k := by
  unfold objMergePy
  rw [objGet_append, objGet_map_mergefun,
    objGet_filter_key b (fun s => !objHas a s) k]
  rcases hga : objGet a k with _ | va
  · have hhas : objHas a k = false := (objGet_none_iff a k).mp hga
    rcases hgb : objGet b k with _ | vb
    · have hbf : objHas b k = false := (objGet_none_iff b k).mp hgb
      simp [hhas, hbf, hgb, Option.orElse]
    · have hbt : objHas b k = true := by
        rw [objHas_iff_isSome, hgb]; rfl
      simp [hhas, hbt, hgb, Option.orElse]
  · have hhas : objHas a k = true := by
      rw [objHas_iff_isSome, hga]; rfl
    rcases hgb : objGet b k with _ | vb
    · have hbf : objHas b k = false := (objGet_none_iff b k).mp hgb
      simp [hhas, hbf, hga, Option.orElse]
    · have hbt : objHas b k = true := by
        rw [objHas_iff_isSome, hgb]; rfl
      simp [hhas, hbt, hgb, Option.orElse]

/-!
## Numeric coercions

Models of the small value coercion helpers shared by the services:
`_coerce_number` and `_coerce_int` from services/module_status.py, plus
Python `int()` truncation and `round()` banker's rounding.
-/

/-- Python `isinstance(value, (int, float)) and not isinstance(value, bool)`:
read a plain (non-boolean) number. -/
def coerceNumber : JVal → Option ℚ
  | .num q => some q
  | _ => none

/-- Python `int()` applied to a number: truncation toward zero. -/
def truncToInt (q : ℚ) : ℤ := if 0 ≤ q then ⌊q⌋ else ⌈q⌉

/-- The `_coerce_int` helper in services/module_status.py: coerce to a
non-boolean number first, then truncate. -/
def coerce_int (v : JVal) : Option ℤ := (coerceNumber v).map truncToInt

/-- Python `round()` on a number: round half to even. -/
def pyRound (q : ℚ) : ℤ :=
  if q - ⌊q⌋ < 1 / 2 then ⌊q⌋
  else if 1 / 2 < q - ⌊q⌋ then ⌊q⌋ + 1
  else if ⌊q⌋ % 2 = 0 then ⌊q⌋ else ⌊q⌋ + 1

/-- Python `str.strip()`: drop leading and trailing whitespace. -/
def pyStrip (s : String) : String :=
  ((s.toList.dropWhile Char.isWhitespace).reverse.dropWhile
    Char.isWhitespace).reverse.asString

/-- Python `str()` of a number in the model: integers print their integral
value, other rationals print as a fraction. -/
def numToStr (q : ℚ) : String :=
  if q.den = 1 then toString q.num else toString q.num ++ "/" ++ toString q.den

theorem toDigits_length_pos (b n : ℕ) : 0 < (Nat.toDigits b n).length := by
  show 0 < (Nat.toDigitsCore b (n + 1) n []).length
  simp only [Nat.toDigitsCore]
  by_cases h : n / b = 0
  · simp [h]
  · simp only [h, if_false]
    rw [Nat.toDigitsCore_lens_eq]
    omega

theorem toString_int_ne_empty (n : ℤ) : toString n ≠ "" := by
  intro hc
  have hlen : (toString n).length = 0 := by rw [hc]; rfl
  have : toString n = Int.repr n := rfl
  rw [this] at hlen
  rcases n with m | m
  · have : Int.repr (Int.ofNat m) = Nat.repr m := rfl
    rw [this] at hlen
    have : Nat.repr m = (Nat.toDigits 10 m).asString := rfl
    rw [this, List.length_asString] at hlen
    have := toDigits_length_pos 10 m
    omega
  · have : Int.repr (Int.negSucc m) = "-" ++ Nat.repr (m + 1) := rfl
    rw [this] at hlen
    rw [String.length_append] at hlen
    have h1 : ("-" : String).length = 1 := rfl
    omega

theorem numToStr_ne_empty (q : ℚ) : numToStr q ≠ "" := by
  unfold numToStr
  by_cases h : q.den = 1
  · simpa [h] using toString_int_ne_empty q.num
  · simp only [h, if_false]
    intro hc
    have hlen : (toString q.num ++ "/" ++ toString q.den).length = 0 := by
      rw [hc]; rfl
    rw [String.length_append, String.length_append] at hlen
    have h2 : ("/" : String).length = 1 := rfl
    omega

/-!
## services/module_identity.py

The module identity resolver: scan candidate keys in fixed priority order
and return the first usable identifier, else the fallback, else the
literal "unknown".
-/

def MODULE_ID_KEYS : List String :=
  ["module", "module_id", "id", "device_id", "device"]

/-- The `_normalize_module_value` helper: a non-empty trimmed string
passes through trimmed, a non-boolean number is stringified, everything
else (None, booleans, containers) is rejected. -/
def normalize_module_value : JVal → Option String
  | .str s => if pyStrip s = "" then none else some (pyStrip s)
  | .num q => some (numToStr q)
  | _ => none

/-- The key scan inside `resolve_module_id`: keys whose value is absent or
does not normalize to a truthy string are skipped. -/
def resolve_module_id_scan (payload : Obj) : List String → Option String
  | [] => none
  | k :: ks =>
      match objGet payload k with
      | none => resolve_module_id_scan payload ks
      | some v =>
          match normalize_module_value v with
          | some s =>
              if s = "" then resolve_module_id_scan payload ks else some s
          | none => resolve_module_id_scan payload ks

/-- Python `fallback or "unknown"`: a falsy fallback (None or the empty
string) is replaced by the literal "unknown". -/
def fallback_or_unknown : Option String → String
  | none => "unknown"
  | some s => if s = "" then "unknown" else s

/-- Model of `resolve_module_id` for dict payloads (a non-dict payload
returns the fallback in the source and is outside the dict model). -/
def resolve_module_id (payload : Obj) (fallback : Option String) : String :=
  match resolve_module_id_scan payload MODULE_ID_KEYS with
  | some s => s
  | none => fallback_or_unknown fallback

/-- Modelled from the claim wording for comparison: the first candidate
value among the scanned keys that is a non-empty string after trimming or
a non-boolean number stringified. -/
def claimFirstCandidate (payload : Obj) : Option String :=
  MODULE_ID_KEYS.findSome? (fun k => (objGet payload k).bind normalize_module_value)

/-!
## services/spool_usage.py

The consumable usage deriver: resolve full edges and total length, resolve
used edges from the prioritized alias fields, and produce a usage delta
with anti-spike guards.
-/

def DEFAULT_SPOOL_LENGTH_MM : ℚ := 50000

def MAX_SPOOL_USAGE_ENTRIES : ℕ := 5000

/-- The inner key loop of `_resolve_numeric`: first key whose value is a
non-boolean number wins. -/
def findKeyNum (src : Obj) : List String → Option ℚ
  | [] => none
  | k :: ks =>
      match (objGet src k).bind coerceNumber with
      | some q => some q
      | none => findKeyNum src ks

/-- The `_resolve_numeric` helper: falsy sources (None or the empty dict)
are skipped; the first source holding a numeric value for one of the keys
wins; otherwise the fallback is returned. -/
def resolve_numeric : List (Option Obj) → List String → Option ℚ → Option ℚ
  | [], _, fb => fb
  | none :: rest, keys, fb => resolve_numeric rest keys fb
  | some src :: rest, keys, fb =>
      if src.isEmpty then resolve_numeric rest keys fb
      else
        match findKeyNum src keys with
        | some q => some q
        | none => resolve_numeric rest keys fb

/-- The percent fallback branch of `_resolve_used_edges`. -/
def usedEdgesFromPercent (sp : Obj) (full_edges : Option ℚ) : Option ℚ :=
  match (objGet sp "percent_remaining").bind coerceNumber, full_edges with
  | some p, some fe =>
      if fe ≠ 0 then some (fe * (1 - (max 0 (min 100 p)) / 100)) else none
  | _, _ => none

/-- The `_resolve_used_edges` helper: explicit `used_edges` first, then
`full_edges - remaining_edges` floored at zero, then the clamped
`percent_remaining` conversion; each fallback requires a truthy
`full_edges`. -/
def resolve_used_edges (spool : Option Obj) (full_edges : Option ℚ) : Option ℚ :=
  match spool with
  | none => none
  | some sp =>
      if sp.isEmpty then none
      else
        match (objGet sp "used_edges").bind coerceNumber with
        | some u => some u
        | none =>
            match (objGet sp "remaining_edges").bind coerceNumber, full_edges with
            | some r, some fe =>
                if fe ≠ 0 then some (max 0 (fe - r))
                else usedEdgesFromPercent sp full_edges
            | _, _ => usedEdgesFromPercent sp full_edges

/-- A spool usage delta as returned by `derive_spool_usage_delta`. -/
structure UsageDelta where
  delta_edges : ℚ
  delta_mm : ℚ
  total_used_edges : ℚ
deriving DecidableEq, Repr

/-- Model of `derive_spool_usage_delta` (the module id argument of the
source only feeds logging and is dropped).  The function is total: every
implausible input yields `none`, no error is raised. -/
def derive_spool_usage_delta
    (previous_spool current_spool config_spool : Option Obj) : Option UsageDelta :=
  match current_spool with
  | none => none
  | some cur =>
      if cur.isEmpty then none
      else
        match resolve_numeric [some cur, config_spool] ["full_edges"] none with
        | none => none
        | some fe =>
            if fe ≤ 0 then none
            else
              match resolve_numeric [some cur, config_spool]
                  ["total_length_mm", "length_mm"] (some DEFAULT_SPOOL_LENGTH_MM) with
              | none => none
              | some tl =>
                  if tl ≤ 0 then none
                  else
                    let mm_per_edge := tl / fe
                    match resolve_used_edges (some cur) (some fe),
                        resolve_used_edges previous_spool (some fe) with
                    | some current_used, some previous_used =>
                        let delta_edges := current_used - previous_used
                        if delta_edges ≤ 0 then none
                        else
                          let delta_mm := delta_edges * mm_per_edge
                          if delta_mm > tl then none
                          else some ⟨delta_edges, delta_mm, current_used⟩
                    | _, _ => none

/-!
## Helper lemmas about the resolvers
-/

theorem objGet_some_not_isEmpty (o : Obj) (k : String) (v : JVal)
    (h : objGet o k = some v) : o.isEmpty = false := by
  cases o with
  | nil => simp [objGet] at h
  | cons p rest => rfl

theorem normalize_module_value_ne_empty (v : JVal) (s : String)
    (h : normalize_module_value v = some s) : s ≠ "" := by
  cases v with
  | str t =>
    by_cases ht : pyStrip t = ""
    · simp [normalize_module_value, ht] at h
    · simp [normalize_module_value, ht] at h
      rw [← h]
      exact ht
  | num q =>
    simp [normalize_module_value] at h
    rw [← h]
    exact numToStr_ne_empty q
  | null => simp [normalize_module_value] at h
  | bool b => simp [normalize_module_value] at h
  | arr xs => simp [normalize_module_value] at h
  | obj fs => simp [normalize_module_value] at h

theorem resolve_module_id_scan_eq_findSome (payload : Obj) (ks : List String) :
    resolve_module_id_scan payload ks =
      ks.findSome? (fun k => (objGet payload k).bind normalize_module_value) := by
  induction ks with
  | nil => simp [resolve_module_id_scan]
  | cons k rest ih =>
    rcases hv : objGet payload k with _ | v
    · simp [resolve_module_id_scan, hv, List.findSome?, ih]
    · rcases hn : normalize_module_value v with _ | s
      · simp [resolve_module_id_scan, hv, hn, List.findSome?, ih]
      · have hs : s ≠ "" := normalize_module_value_ne_empty v s hn
        simp [resolve_module_id_scan, hv, hn, List.findSome?, hs, ih]

/-!
## Claim theorems for the consumable usage deriver and identity resolver
-/

/-- Claim C3: for previous and current spool fragments with resolvable
used-edges values, a resolvable positive full-edge count, a resolvable
positive total length (defaulting to 50 000 mm when no length field is
numeric), a strictly increasing used count and a delta within one full
roll, the deriver produces exactly one usage event carrying the edge
delta, the converted millimetre delta and the current used count; and the
used-edges resolution follows the priority order explicit used edges,
then full minus remaining floored at zero, then the clamped percent
conversion. -/
theorem derive_spool_usage_delta_valid_event :
    (∀ (prev cfg : Option Obj) (curObj : Obj) (fe tl cu pu : ℚ),
      resolve_numeric [some curObj, cfg] ["full_edges"] none = some fe →
      0 < fe →
      resolve_numeric [some curObj, cfg] ["total_length_mm", "length_mm"]
          (some DEFAULT_SPOOL_LENGTH_MM) = some tl →
      0 < tl →
      resolve_used_edges (some curObj) (some fe) = some cu →
      resolve_used_edges prev (some fe) = some pu →
      pu < cu →
      (cu - pu) * (tl / fe) ≤ tl →
      derive_spool_usage_delta prev (some curObj) cfg =
        some ⟨cu - pu, (cu - pu) * (tl / fe), cu⟩) ∧
    (∀ (sp : Obj) (fe u : ℚ),
      objGet sp "used_edges" = some (JVal.num u) →
      resolve_used_edges (some sp) (some fe) = some u) ∧
    (∀ (sp : Obj) (fe r : ℚ),
      sp.isEmpty = false →
      (objGet sp "used_edges").bind coerceNumber = none →
      objGet sp "remaining_edges" = some (JVal.num r) →
      fe ≠ 0 →
      resolve_used_edges (some sp) (some fe) = some (max 0 (fe - r))) ∧
    (∀ (sp : Obj) (fe p : ℚ),
      sp.isEmpty = false →
      (objGet sp "used_edges").bind coerceNumber = none →
      (objGet sp "remaining_edges").bind coerceNumber = none →
      objGet sp "percent_remaining" = some (JVal.num p) →
      fe ≠ 0 →
      resolve_used_edges (some sp) (some fe) =
        some (fe * (1 - (max 0 (min 100 p)) / 100))) ∧
    (∀ (curObj : Obj) (cfg : Option Obj),
      findKeyNum curObj ["total_length_mm", "length_mm"] = none →
      (cfg = none ∨ ∃ c, cfg = some c ∧
        findKeyNum c ["total_length_mm", "length_mm"] = none) →
      resolve_numeric [some curObj, cfg] ["total_length_mm", "length_mm"]
          (some DEFAULT_SPOOL_LENGTH_MM) = some DEFAULT_SPOOL_LENGTH_MM) := by
  refine ⟨?_, ?_, ?_, ?_, ?_⟩
  · intro prev cfg curObj fe tl cu pu hfe hfepos htl htlpos hcu hpu hlt hspike
    have hne : curObj.isEmpty = false := by
      cases hc : curObj with
      | nil =>
        rw [hc] at hcu
        simp [resolve_used_edges] at hcu
      | cons p rest => rfl
    have h1 : ¬ fe ≤ 0 := not_le.mpr hfepos
    have h2 : ¬ tl ≤ 0 := not_le.mpr htlpos
    have h3 : ¬ cu - pu ≤ 0 := by
      rw [not_le]
      exact sub_pos.mpr hlt
    have h4 : ¬ (cu - pu) * (tl / fe) > tl := not_lt.mpr hspike
    simp only [derive_spool_usage_delta, hne, Bool.false_eq_true, if_false,
      hfe, htl, hcu, hpu, h1, h2, h3, h4, if_true]
  · intro sp fe u hu
    have hne : sp.isEmpty = false := objGet_some_not_isEmpty sp _ _ hu
    simp [resolve_used_edges, hne, hu, coerceNumber]
  · intro sp fe r hne hu hr hfe
    simp only [coerceNumber] at hu
    simp [resolve_used_edges, hne, hu, hr, coerceNumber, hfe]
  · intro sp fe p hne hu hr hp hfe
    simp only [coerceNumber] at hu hr
    simp [resolve_used_edges, usedEdgesFromPercent, hne, hu, hr, hp,
      coerceNumber, hfe]
  · intro curObj cfg hcur hcfg
    rcases hcfg with hnone | ⟨c, hc, hcnone⟩
    · simp [resolve_numeric, hnone, hcur]
    · subst hc
      by_cases hemp : curObj.isEmpty <;> by_cases hcemp : c.isEmpty <;>
        simp [resolve_numeric, hcur, hcnone, hemp, hcemp]

/-- Witness for claim C3 at a concrete frame: previous used edges 10,
current used edges 12 with 100 full edges and the default 50 000 mm
length, giving a delta of 2 edges and 2 times 500 mm. -/
theorem derive_spool_usage_delta_valid_event_witness :
    derive_spool_usage_delta
      (some [("used_edges", JVal.num 10)])
      (some [("used_edges", JVal.num 12), ("full_edges", JVal.num 100)])
      none =
      some ⟨12 - 10, (12 - 10) * (50000 / 100), 12⟩ := by
  have h := derive_spool_usage_delta_valid_event.1
    (some [("used_edges", JVal.num 10)]) none
    [("used_edges", JVal.num 12), ("full_edges", JVal.num 100)]
    100 50000 12 10 rfl (by norm_num) rfl (by norm_num) rfl rfl
    (by norm_num) (by norm_num)
  exact h

/-- Claim C4: when the resolved used-edge delta is not positive, or the
converted millimetre delta exceeds the total length, the deriver yields no
usage event; it is a total function, so no error is raised either way. -/
theorem derive_spool_usage_delta_drops_invalid :
    (∀ (prev cfg : Option Obj) (curObj : Obj) (fe tl cu pu : ℚ),
      resolve_numeric [some curObj, cfg] ["full_edges"] none = some fe →
      0 < fe →
      resolve_numeric [some curObj, cfg] ["total_length_mm", "length_mm"]
          (some DEFAULT_SPOOL_LENGTH_MM) = some tl →
      0 < tl →
      resolve_used_edges (some curObj) (some fe) = some cu →
      resolve_used_edges prev (some fe) = some pu →
      cu - pu ≤ 0 →
      derive_spool_usage_delta prev (some curObj) cfg = none) ∧
    (∀ (prev cfg : Option Obj) (curObj : Obj) (fe tl cu pu : ℚ),
      resolve_numeric [some curObj, cfg] ["full_edges"] none = some fe →
      0 < fe →
      resolve_numeric [some curObj, cfg] ["total_length_mm", "length_mm"]
          (some DEFAULT_SPOOL_LENGTH_MM) = some tl →
      0 < tl →
      resolve_used_edges (some curObj) (some fe) = some cu →
      resolve_used_edges prev (some fe) = some pu →
      tl < (cu - pu) * (tl / fe) →
      derive_spool_usage_delta prev (some curObj) cfg = none) := by
  constructor
  · intro prev cfg curObj fe tl cu pu hfe hfepos htl htlpos hcu hpu hdelta
    have hne : curObj.isEmpty = false := by
      cases hc : curObj with
      | nil =>
        rw [hc] at hcu
        simp [resolve_used_edges] at hcu
      | cons p rest => rfl
    have h1 : ¬ fe ≤ 0 := not_le.mpr hfepos
    have h2 : ¬ tl ≤ 0 := not_le.mpr htlpos
    simp only [derive_spool_usage_delta, hne, Bool.false_eq_true, if_false,
      hfe, htl, hcu, hpu, h1, h2, hdelta, if_true]
  · intro prev cfg curObj fe tl cu pu hfe hfepos htl htlpos hcu hpu hspike
    have hne : curObj.isEmpty = false := by
      cases hc : curObj with
      | nil =>
        rw [hc] at hcu
        simp [resolve_used_edges] at hcu
      | cons p rest => rfl
    have h1 : ¬ fe ≤ 0 := not_le.mpr hfepos
    have h2 : ¬ tl ≤ 0 := not_le.mpr htlpos
    by_cases h3 : cu - pu ≤ 0
    · simp only [derive_spool_usage_delta, hne, Bool.false_eq_true, if_false,
        hfe, htl, hcu, hpu, h1, h2, h3, if_true]
    · simp only [derive_spool_usage_delta, hne, Bool.false_eq_true, if_false,
        hfe, htl, hcu, hpu, h1, h2, h3, gt_iff_lt, hspike, if_true]

/-- Witness for claim C4: a decreasing used count produces no event, and a
spike larger than one full roll (used edges jumping 10 to 90 with only 40
full edges and the default length) is silently dropped. -/
theorem derive_spool_usage_delta_drops_invalid_witness :
    derive_spool_usage_delta
      (some [("used_edges", JVal.num 12)])
      (some [("used_edges", JVal.num 10), ("full_edges", JVal.num 100)])
      none = none ∧
    derive_spool_usage_delta
      (some [("used_edges", JVal.num 10)])
      (some [("used_edges", JVal.num 90), ("full_edges", JVal.num 40)])
      none = none := by
  constructor
  · exact derive_spool_usage_delta_drops_invalid.1
      (some [("used_edges", JVal.num 12)]) none
      [("used_edges", JVal.num 10), ("full_edges", JVal.num 100)]
      100 50000 10 12 rfl (by norm_num) rfl (by norm_num) rfl rfl (by norm_num)
  · exact derive_spool_usage_delta_drops_invalid.2
      (some [("used_edges", JVal.num 10)]) none
      [("used_edges", JVal.num 90), ("full_edges", JVal.num 40)]
      40 50000 90 10 rfl (by norm_num) rfl (by norm_num) rfl rfl (by norm_num)

/-- Claim C8: the identity resolver scans the candidate keys module,
module_id, id, device_id, device in exactly that order and returns the
first value that is a non-empty string after trimming or a non-boolean
number stringified; when no candidate matches it returns the supplied
fallback, a missing or empty fallback defaulting to the literal
"unknown". -/
theorem resolve_module_id_spec :
    (∀ (payload : Obj) (fb : Option String),
      resolve_module_id payload fb =
        match claimFirstCandidate payload with
        | some s => s
        | none => fallback_or_unknown fb) ∧
    (∀ (payload : Obj) (s : String),
      claimFirstCandidate payload = none → s ≠ "" →
      resolve_module_id payload (some s) = s) ∧
    (∀ (payload : Obj),
      claimFirstCandidate payload = none →
      resolve_module_id payload none = "unknown") := by
  have base : ∀ (payload : Obj) (fb : Option String),
      resolve_module_id payload fb =
        match claimFirstCandidate payload with
        | some s => s
        | none => fallback_or_unknown fb := by
    intro payload fb
    unfold resolve_module_id claimFirstCandidate
    rw [resolve_module_id_scan_eq_findSome]
  refine ⟨base, ?_, ?_⟩
  · intro payload s hnone hs
    rw [base payload (some s), hnone]
    simp [fallback_or_unknown, hs]
  · intro payload hnone
    rw [base payload none, hnone]
    rfl

/-- Witness for claim C8: a payload whose module key is blank and whose id
key holds the number 7 resolves to "7"; an empty payload falls back to the
supplied fallback, and an empty-string fallback yields "unknown". -/
theorem resolve_module_id_spec_witness :
    resolve_module_id [("module", JVal.str "  "), ("id", JVal.num 7)] none =
      numToStr 7 ∧
    resolve_module_id [] (some "conn-3") = "conn-3" ∧
    resolve_module_id [] (some "") = "unknown" := by
  refine ⟨?_, ?_, ?_⟩
  · have h := (resolve_module_id_spec.1)
      [("module", JVal.str "  "), ("id", JVal.num 7)] none
    rw [h]
    rfl
  · exact resolve_module_id_spec.2.1 [] "conn-3" rfl (by decide)
  · have h := (resolve_module_id_spec.1) [] (some "")
    rw [h]
    rfl

/-!
## services/module_status.py: spool merge inside upsert_module_status
-/

/-- Truthiness of an optional dict fragment: missing, non-dict or empty
fragments are falsy (Python `if existing_spool and current_spool`). -/
def fragTruthy : Option Obj → Bool
  | none => false
  | some o => !o.isEmpty

/-- The extraction pattern `payload.get("spool") if
isinstance(payload.get("spool"), dict) else None`. -/
def spoolFragOf (payload : Obj) : Option Obj :=
  match objGet payload "spool" with
  | some (.obj sp) => some sp
  | _ => none

/-- Total nested-dict access used to state claims: the dict stored under a
key, or the empty dict when the key is missing or holds a non-dict. -/
def objGetObj (o : Obj) (k : String) : Obj :=
  match objGet o k with
  | some (.obj x) => x
  | _ => []

/-- Model of the spool-merging step of `upsert_module_status` (lines 87 to
101 of services/module_status.py): the stored payload is replaced by the
incoming payload copy, with the spool fragment merged by Python dict
unpacking over the previously stored fragment, or carried over wholesale
when the incoming frame has no usable spool fragment.  The
subsystem-to-heater mirroring step only inserts heater and heaters keys
and never touches the spool key, so it is omitted from this model. -/
def upsert_status_payload (existing_payload : Option Obj) (payload_copy : Obj) : Obj :=
  let existing : Obj := existing_payload.getD []
  let current_spool := spoolFragOf payload_copy
  let existing_spool := spoolFragOf existing
  if fragTruthy existing_spool && fragTruthy current_spool then
    objSet payload_copy "spool"
      (.obj (objMergePy (existing_spool.getD []) (current_spool.getD [])))
  else if fragTruthy existing_spool && !fragTruthy current_spool then
    objSet payload_copy "spool" (.obj (existing_spool.getD []))
  else payload_copy

/-- Counterexample to claim C2 as stated: the merge is not performed at
every nesting level.  With a stored spool fragment whose motor group holds
speed 1 and ramp 2, and an incoming frame whose motor group holds only
speed 3, the merged record's motor group has lost the ramp field entirely
instead of preserving the old value: the merge is shallow, nested groups
are replaced wholesale. -/
theorem upsert_status_deep_merge_counterexample :
    objGet (objGetObj (objGetObj
        [("spool", JVal.obj [("motor",
          JVal.obj [("speed", JVal.num 1), ("ramp", JVal.num 2)])])]
        "spool") "motor") "ramp" = some (JVal.num 2) ∧
    objGet (objGetObj (objGetObj
        (upsert_status_payload
          (some [("spool", JVal.obj [("motor",
            JVal.obj [("speed", JVal.num 1), ("ramp", JVal.num 2)])])])
          [("spool", JVal.obj [("motor", JVal.obj [("speed", JVal.num 3)])])])
        "spool") "motor") "ramp" = none ∧
    objGet (objGetObj (objGetObj
        (upsert_status_payload
          (some [("spool", JVal.obj [("motor",
            JVal.obj [("speed", JVal.num 1), ("ramp", JVal.num 2)])])])
          [("spool", JVal.obj [("motor", JVal.obj [("speed", JVal.num 3)])])])
        "spool") "motor") "speed" = some (JVal.num 3) := by
  refine ⟨rfl, rfl, rfl⟩

/-- Claim C2 amended: the spool merge is shallow.  At the top level of the
spool fragment every field present in the incoming fragment wins (nested
objects are replaced wholesale) and every field absent from the incoming
fragment keeps its previously stored value; when the incoming frame
carries no usable spool fragment the stored fragment is carried over
unchanged. -/
theorem upsert_status_spool_merge_amended :
    (∀ (existing_payload : Option Obj) (payload_copy ex cu : Obj),
      spoolFragOf (existing_payload.getD []) = some ex → ex ≠ [] →
      spoolFragOf payload_copy = some cu → cu ≠ [] →
      objGet (upsert_status_payload existing_payload payload_copy) "spool" =
        some (.obj (objMergePy ex cu)) ∧
      ∀ k, objGet (objGetObj
          (upsert_status_payload existing_payload payload_copy) "spool") k =
        if objHas cu k then objGet cu k else objGet ex k) ∧
    (∀ (existing_payload : Option Obj) (payload_copy ex : Obj),
      spoolFragOf (existing_payload.getD []) = some ex → ex ≠ [] →
      fragTruthy (spoolFragOf payload_copy) = false →
      objGet (upsert_status_payload existing_payload payload_copy) "spool" =
        some (.obj ex)) := by
  constructor
  · intro existing_payload payload_copy ex cu hex hexne hcu hcune
    have h1 : fragTruthy (some ex) = true := by
      simpa [fragTruthy, List.isEmpty_iff] using hexne
    have h2 : fragTruthy (some cu) = true := by
      simpa [fragTruthy, List.isEmpty_iff] using hcune
    have hres : upsert_status_payload existing_payload payload_copy =
        objSet payload_copy "spool" (.obj (objMergePy ex cu)) := by
      simp only [upsert_status_payload]
      rw [hex, hcu]
      simp [h1, h2]
    constructor
    · rw [hres, objGet_objSet_self]
    · intro k
      rw [hres]
      have hobj : objGetObj
          (objSet payload_copy "spool" (.obj (objMergePy ex cu)))
          "spool" = objMergePy ex cu := by
        unfold objGetObj
        rw [objGet_objSet_self]
      rw [hobj, objGet_objMergePy]
  · intro existing_payload payload_copy ex hex hexne hcuf
    have h1 : fragTruthy (some ex) = true := by
      simpa [fragTruthy, List.isEmpty_iff] using hexne
    have hres : upsert_status_payload existing_payload payload_copy =
        objSet payload_copy "spool" (.obj ex) := by
      simp only [upsert_status_payload]
      rw [hex, hcuf]
      simp [h1]
    rw [hres, objGet_objSet_self]

/-- Witness for the amended claim C2: merging an incoming fragment that
omits full_edges over a stored fragment holding full_edges 100 keeps the
stored value while the incoming used_edges wins. -/
theorem upsert_status_spool_merge_amended_witness :
    objGet (upsert_status_payload
        (some [("spool", JVal.obj
          [("full_edges", JVal.num 100), ("used_edges", JVal.num 10)])])
        [("spool", JVal.obj [("used_edges", JVal.num 12)])]) "spool" =
      some (.obj (objMergePy
        [("full_edges", JVal.num 100), ("used_edges", JVal.num 10)]
        [("used_edges", JVal.num 12)])) ∧
    objGet (objGetObj (upsert_status_payload
        (some [("spool", JVal.obj
          [("full_edges", JVal.num 100), ("used_edges", JVal.num 10)])])
        [("spool", JVal.obj [("used_edges", JVal.num 12)])]) "spool")
        "full_edges" = objGet
          [("full_edges", JVal.num 100), ("used_edges", JVal.num 10)]
          "full_edges" ∧
    objGet (upsert_status_payload
        (some [("spool", JVal.obj [("full_edges", JVal.num 100)])])
        [("label", JVal.str "roller")]) "spool" =
      some (.obj [("full_edges", JVal.num 100)]) := by
  refine ⟨?_, ?_, ?_⟩
  · exact (upsert_status_spool_merge_amended.1
      (some [("spool", JVal.obj
        [("full_edges", JVal.num 100), ("used_edges", JVal.num 10)])])
      [("spool", JVal.obj [("used_edges", JVal.num 12)])]
      [("full_edges", JVal.num 100), ("used_edges", JVal.num 10)]
      [("used_edges", JVal.num 12)]
      rfl (by simp) rfl (by simp)).1
  · have h := (upsert_status_spool_merge_amended.1
      (some [("spool", JVal.obj
        [("full_edges", JVal.num 100), ("used_edges", JVal.num 10)])])
      [("spool", JVal.obj [("used_edges", JVal.num 12)])]
      [("full_edges", JVal.num 100), ("used_edges", JVal.num 10)]
      [("used_edges", JVal.num 12)]
      rfl (by simp) rfl (by simp)).2 "full_edges"
    rw [h]
    rfl
  · exact upsert_status_spool_merge_amended.2
      (some [("spool", JVal.obj [("full_edges", JVal.num 100)])])
      [("label", JVal.str "roller")]
      [("full_edges", JVal.num 100)]
      rfl (by simp) rfl

/-!
## services/module_status.py: ATO activation cycle synthesis
-/

def ATO_FLOW_ML_PER_MS : ℚ := 3 / 80

/-- A cycle log entry as assembled by `_record_ato_activation_cycles` and
handed to `record_cycle_log`. -/
structure CycleEntry where
  module : String
  cycle_type : String
  trigger : Option String
  duration_ms : Option ℤ
  timestamp_s : JVal

/-- The key scan of `_resolve_trigger`: the first candidate that is a
string with non-blank content is returned unstripped. -/
def resolveTriggerScan (payload : Obj) : List String → Option String
  | [] => none
  | k :: ks =>
      match objGet payload k with
      | some (.str s) =>
          if pyStrip s = "" then resolveTriggerScan payload ks else some s
      | _ => resolveTriggerScan payload ks

/-- Model of `_resolve_trigger`. -/
def resolve_trigger (payload : Obj) (default : Option String) : Option String :=
  match resolveTriggerScan payload ["trigger", "reason", "source"] with
  | some s => some s
  | none => default

/-- The pattern `(fragment or an empty dict).get(key)` followed by
`_coerce_number`. -/
def coerceNumKey (o : Option Obj) (k : String) : Option ℚ :=
  match o with
  | some ob => (objGet ob k).bind coerceNumber
  | none => none

/-- The pattern `_coerce_int((fragment or an empty dict).get(key))`. -/
def coerceIntKey (o : Option Obj) (k : String) : Option ℤ :=
  (coerceNumKey o k).map truncToInt

/-- Model of `_estimate_ato_duration_ms`: estimate a per-activation pump
duration from the observed tank level drop split evenly across the
increments and divided by the fixed flow rate, rounded to an integer.
The division by increments is guarded by the positivity check of the
source. -/
def estimate_ato_duration_ms
    (previous_ato current_ato : Option Obj) (increments : ℤ) : Option ℤ :=
  if increments ≤ 0 then none
  else
    match coerceNumKey previous_ato "tank_level_ml",
        coerceNumKey current_ato "tank_level_ml" with
    | some prev_level, some curr_level =>
        if prev_level ≤ curr_level then none
        else
          let delta_ml := prev_level - curr_level
          let per_activation_ml := delta_ml / (increments : ℚ)
          if per_activation_ml ≤ 0 then none
          else
            let duration_ms := per_activation_ml / ATO_FLOW_ML_PER_MS
            if duration_ms ≤ 0 then none
            else some (pyRound duration_ms)
    | _, _ => none

/-- The runtime hint resolution of `_record_ato_activation_cycles`:
`payload.get("duration_ms")`, falling back to `payload.get("runtime_ms")`
only when the former is None. -/
def atoRuntimeHint (payload : Obj) : JVal :=
  match objGet payload "duration_ms" with
  | some JVal.null => (objGet payload "runtime_ms").getD JVal.null
  | some v => v
  | none => (objGet payload "runtime_ms").getD JVal.null

/-- The timestamp chain `payload.get("timestamp_s") or (current_ato or
an empty dict).get("timestamp_s")`. -/
def atoTimestamp (payload : Obj) (current_ato : Option Obj) : JVal :=
  let ts := (objGet payload "timestamp_s").getD JVal.null
  if truthy ts then ts
  else
    match current_ato with
    | some o => (objGet o "timestamp_s").getD JVal.null
    | none => JVal.null

/-- Model of `_record_ato_activation_cycles`: returns the list of cycle
entries handed to `record_cycle_log` (the source awaits one insert per
increment; the model collects them).  A positive coerced duration
override wins, otherwise the tank-level estimate, otherwise null. -/
def record_ato_activation_cycles (module_id : String)
    (previous_ato current_ato : Option Obj) (payload : Obj) : List CycleEntry :=
  match coerceIntKey previous_ato "activations",
      coerceIntKey current_ato "activations" with
  | some prev_count, some curr_count =>
      if curr_count ≤ prev_count then []
      else
        let increments := curr_count - prev_count
        let trigger := resolve_trigger payload (some "auto")
        let timestamp_s := atoTimestamp payload current_ato
        let duration_override := coerce_int (atoRuntimeHint payload)
        let explicit : Option ℤ :=
          match duration_override with
          | some d => if 0 < d then some d else none
          | none => none
        let per_cycle_duration : Option ℤ :=
          match explicit with
          | some d => some d
          | none => estimate_ato_duration_ms previous_ato current_ato increments
        List.replicate increments.toNat
          ⟨module_id, "pump_activation", trigger, per_cycle_duration, timestamp_s⟩
  | _, _ => []

theorem truncToInt_intCast (d : ℤ) : truncToInt ((d : ℚ)) = d := by
  unfold truncToInt
  by_cases h : (0 : ℚ) ≤ (d : ℚ)
  · simp [h, Int.floor_intCast]
  · simp [h, Int.ceil_intCast]

/-- Claim C6: an ato_activations frame whose activation counter rose by N
over the stored counter synthesizes exactly N pump_activation cycle
entries; each entry's duration is the explicit duration_ms or runtime_ms
value when it coerces to a positive integer, otherwise the estimate
obtained by dividing the per-increment tank-level drop by the fixed flow
rate of 0.0375 millilitres per millisecond and rounding, otherwise null;
an unchanged or decreased counter produces no entries. -/
theorem record_ato_activation_cycles_spec :
    (∀ (mid : String) (prev cur : Option Obj) (payload : Obj) (p c : ℤ),
      coerceIntKey prev "activations" = some p →
      coerceIntKey cur "activations" = some c →
      c ≤ p →
      record_ato_activation_cycles mid prev cur payload = []) ∧
    (∀ (mid : String) (prev cur : Option Obj) (payload : Obj) (p c : ℤ),
      coerceIntKey prev "activations" = some p →
      coerceIntKey cur "activations" = some c →
      p < c →
      (record_ato_activation_cycles mid prev cur payload).length = (c - p).toNat ∧
      ∀ e ∈ record_ato_activation_cycles mid prev cur payload,
        e.cycle_type = "pump_activation" ∧ e.module = mid) ∧
    (∀ (mid : String) (prev cur : Option Obj) (payload : Obj) (p c d : ℤ),
      coerceIntKey prev "activations" = some p →
      coerceIntKey cur "activations" = some c →
      p < c →
      objGet payload "duration_ms" = some (JVal.num (d : ℚ)) →
      0 < d →
      ∀ e ∈ record_ato_activation_cycles mid prev cur payload,
        e.duration_ms = some d) ∧
    (∀ (mid : String) (prev cur : Option Obj) (payload : Obj) (p c d : ℤ),
      coerceIntKey prev "activations" = some p →
      coerceIntKey cur "activations" = some c →
      p < c →
      objGet payload "duration_ms" = none →
      objGet payload "runtime_ms" = some (JVal.num (d : ℚ)) →
      0 < d →
      ∀ e ∈ record_ato_activation_cycles mid prev cur payload,
        e.duration_ms = some d) ∧
    (∀ (mid : String) (prev cur : Option Obj) (payload : Obj) (p c : ℤ),
      coerceIntKey prev "activations" = some p →
      coerceIntKey cur "activations" = some c →
      p < c →
      (∀ d, coerce_int (atoRuntimeHint payload) = some d → d ≤ 0) →
      ∀ e ∈ record_ato_activation_cycles mid prev cur payload,
        e.duration_ms = estimate_ato_duration_ms prev cur (c - p)) ∧
    (∀ (prev cur : Option Obj) (n : ℤ) (pl cl : ℚ),
      0 < n →
      coerceNumKey prev "tank_level_ml" = some pl →
      coerceNumKey cur "tank_level_ml" = some cl →
      cl < pl →
      estimate_ato_duration_ms prev cur n =
        some (pyRound (((pl - cl) / (n : ℚ)) / ATO_FLOW_ML_PER_MS))) ∧
    (∀ (prev cur : Option Obj) (n : ℤ),
      coerceNumKey prev "tank_level_ml" = none ∨
        coerceNumKey cur "tank_level_ml" = none →
      estimate_ato_duration_ms prev cur n = none) := by
  refine ⟨?_, ?_, ?_, ?_, ?_, ?_, ?_⟩
  · intro mid prev cur payload p c hp hc hle
    simp [record_ato_activation_cycles, hp, hc, hle]
  · intro mid prev cur payload p c hp hc hlt
    have hnle : ¬ c ≤ p := not_le.mpr hlt
    constructor
    · simp [record_ato_activation_cycles, hp, hc, hnle]
    · intro e he
      simp only [record_ato_activation_cycles, hp, hc, hnle, if_false] at he
      have := List.eq_of_mem_replicate he
      rw [this]
      exact ⟨rfl, rfl⟩
  · intro mid prev cur payload p c d hp hc hlt hd hdpos
    have hnle : ¬ c ≤ p := not_le.mpr hlt
    have hhint : atoRuntimeHint payload = JVal.num (d : ℚ) := by
      unfold atoRuntimeHint
      rw [hd]
    have hover : coerce_int (atoRuntimeHint payload) = some d := by
      rw [hhint]
      simp [coerce_int, coerceNumber, truncToInt_intCast]
    intro e he
    simp only [record_ato_activation_cycles, hp, hc, hnle, if_false,
      hover, hdpos, if_true] at he
    have := List.eq_of_mem_replicate he
    rw [this]
  · intro mid prev cur payload p c d hp hc hlt hd hr hdpos
    have hnle : ¬ c ≤ p := not_le.mpr hlt
    have hhint : atoRuntimeHint payload = JVal.num (d : ℚ) := by
      unfold atoRuntimeHint
      rw [hd, hr]
      rfl
    have hover : coerce_int (atoRuntimeHint payload) = some d := by
      rw [hhint]
      simp [coerce_int, coerceNumber, truncToInt_intCast]
    intro e he
    simp only [record_ato_activation_cycles, hp, hc, hnle, if_false,
      hover, hdpos, if_true] at he
    have := List.eq_of_mem_replicate he
    rw [this]
  · intro mid prev cur payload p c hp hc hlt hno
    have hnle : ¬ c ≤ p := not_le.mpr hlt
    intro e he
    rcases hov : coerce_int (atoRuntimeHint payload) with _ | d
    · simp only [record_ato_activation_cycles, hp, hc, hnle, if_false,
        hov] at he
      have := List.eq_of_mem_replicate he
      rw [this]
    · have hdle : d ≤ 0 := hno d hov
      have hdnpos : ¬ 0 < d := not_lt.mpr hdle
      simp only [record_ato_activation_cycles, hp, hc, hnle, if_false,
        hov, hdnpos, if_false] at he
      have := List.eq_of_mem_replicate he
      rw [this]
  · intro prev cur n pl cl hn hpl hcl hdrop
    have hn' : ¬ n ≤ 0 := not_le.mpr hn
    have hle : ¬ pl ≤ cl := not_le.mpr hdrop
    have hcast : (0 : ℚ) < (n : ℚ) := by exact_mod_cast hn
    have hper : 0 < (pl - cl) / (n : ℚ) :=
      div_pos (sub_pos.mpr hdrop) hcast
    have hper' : ¬ (pl - cl) / (n : ℚ) ≤ 0 := not_le.mpr hper
    have hflow : 0 < ATO_FLOW_ML_PER_MS := by norm_num [ATO_FLOW_ML_PER_MS]
    have hdur : 0 < ((pl - cl) / (n : ℚ)) / ATO_FLOW_ML_PER_MS :=
      div_pos hper hflow
    have hdur' : ¬ ((pl - cl) / (n : ℚ)) / ATO_FLOW_ML_PER_MS ≤ 0 :=
      not_le.mpr hdur
    simp only [estimate_ato_duration_ms, hn', if_false, hpl, hcl, hle,
      hper', hdur', if_true]
  · intro prev cur n hnone
    unfold estimate_ato_duration_ms
    by_cases hn : n ≤ 0
    · simp [hn]
    · rcases hnone with h | h
      · simp [hn, h]
      · rcases hx : coerceNumKey prev "tank_level_ml" with _ | pl
        · simp [hn, hx]
        · simp [hn, hx, h]

/-- Witness for claim C6 on the worked example of the specification: a
counter rise from 3 to 5 with a 200 millilitre tank drop, no explicit
duration field, yields two pump_activation entries whose estimated
duration is the rounded value of 100 divided by 0.0375; the same frame
against an unchanged counter yields nothing. -/
theorem record_ato_activation_cycles_spec_witness :
    (record_ato_activation_cycles "ato-1"
        (some [("activations", JVal.num 3), ("tank_level_ml", JVal.num 1000)])
        (some [("activations", JVal.num 5), ("tank_level_ml", JVal.num 800)])
        []).length = ((5 : ℤ) - 3).toNat ∧
    (∀ e ∈ record_ato_activation_cycles "ato-1"
        (some [("activations", JVal.num 3), ("tank_level_ml", JVal.num 1000)])
        (some [("activations", JVal.num 5), ("tank_level_ml", JVal.num 800)])
        [],
      e.duration_ms = estimate_ato_duration_ms
        (some [("activations", JVal.num 3), ("tank_level_ml", JVal.num 1000)])
        (some [("activations", JVal.num 5), ("tank_level_ml", JVal.num 800)])
        ((5 : ℤ) - 3)) ∧
    estimate_ato_duration_ms
        (some [("activations", JVal.num 3), ("tank_level_ml", JVal.num 1000)])
        (some [("activations", JVal.num 5), ("tank_level_ml", JVal.num 800)])
        ((5 : ℤ) - 3) =
      some (pyRound ((((1000 : ℚ) - 800) / (((5 : ℤ) - 3 : ℤ) : ℚ)) /
        ATO_FLOW_ML_PER_MS)) ∧
    record_ato_activation_cycles "ato-1"
        (some [("activations", JVal.num 5)])
        (some [("activations", JVal.num 5)]) [] = [] := by
  refine ⟨?_, ?_, ?_, ?_⟩
  · exact (record_ato_activation_cycles_spec.2.1 "ato-1"
      (some [("activations", JVal.num 3), ("tank_level_ml", JVal.num 1000)])
      (some [("activations", JVal.num 5), ("tank_level_ml", JVal.num 800)])
      [] 3 5 rfl rfl (by norm_num)).1
  · exact record_ato_activation_cycles_spec.2.2.2.2.1 "ato-1"
      (some [("activations", JVal.num 3), ("tank_level_ml", JVal.num 1000)])
      (some [("activations", JVal.num 5), ("tank_level_ml", JVal.num 800)])
      [] 3 5 rfl rfl (by norm_num)
      (by intro d hd; simp [atoRuntimeHint, objGet, coerce_int,
        coerceNumber, List.find?] at hd)
  · exact record_ato_activation_cycles_spec.2.2.2.2.2.1
      (some [("activations", JVal.num 3), ("tank_level_ml", JVal.num 1000)])
      (some [("activations", JVal.num 5), ("tank_level_ml", JVal.num 800)])
      ((5 : ℤ) - 3) 1000 800 (by norm_num) rfl rfl (by norm_num)
  · exact record_ato_activation_cycles_spec.1 "ato-1"
      (some [("activations", JVal.num 5)])
      (some [("activations", JVal.num 5)]) [] 5 5 rfl rfl le_rfl

/-!
## Equality theory for pyEq
-/

theorem jeq_eq_true_iff (a b : JVal) : jeq a b = true ↔ a = b := by
  suffices H : ∀ (n : ℕ) (a b : JVal), sizeOf a ≤ n → jeq a b = true → a = b by
    exact ⟨fun h => H (sizeOf a) a b le_rfl h, fun h => h ▸ jeq_refl a⟩
  intro n
  induction n with
  | zero =>
    intro a b h hj
    exfalso
    cases a <;> simp_all
  | succ n ih =>
    intro a b h hj
    cases a with
    | null => cases b <;> simp_all [jeq]
    | bool x => cases b <;> simp_all [jeq]
    | num x => cases b <;> simp_all [jeq]
    | str x => cases b <;> simp_all [jeq]
    | arr xs =>
      cases b with
      | arr ys =>
        cases xs with
        | nil => cases ys with
          | nil => rfl
          | cons y ys' => simp [jeq] at hj
        | cons x xs' =>
          cases ys with
          | nil => simp [jeq] at hj
          | cons y ys' =>
            simp only [jeq, Bool.and_eq_true] at hj
            have hx : sizeOf x ≤ n := by simp at h; omega
            have hxs : sizeOf (JVal.arr xs') ≤ n := by simp at h ⊢; omega
            have h1 := ih x y hx hj.1
            have h2 := ih (JVal.arr xs') (JVal.arr ys') hxs hj.2
            injection h2 with h3
            rw [h1, h3]
      | null => simp [jeq] at hj
      | bool y => simp [jeq] at hj
      | num y => simp [jeq] at hj
      | str y => simp [jeq] at hj
      | obj ys => cases xs <;> simp [jeq] at hj
    | obj xs =>
      cases b with
      | obj ys =>
        cases xs with
        | nil => cases ys with
          | nil => rfl
          | cons y ys' =>
            rcases y with ⟨yk, yv⟩
            simp [jeq] at hj
        | cons x xs' =>
          rcases x with ⟨xk, xv⟩
          cases ys with
          | nil => simp [jeq] at hj
          | cons y ys' =>
            rcases y with ⟨yk, yv⟩
            simp only [jeq, Bool.and_eq_true, beq_iff_eq] at hj
            have hv : sizeOf xv ≤ n := by simp at h; omega
            have hxs : sizeOf (JVal.obj xs') ≤ n := by simp at h ⊢; omega
            have h1 := ih xv yv hv hj.1.2
            have h2 := ih (JVal.obj xs') (JVal.obj ys') hxs hj.2
            injection h2 with h3
            rw [hj.1.1, h1, h3]
      | null => simp [jeq] at hj
      | bool y => cases xs <;> simp [jeq] at hj
      | num y => cases xs <;> simp [jeq] at hj
      | str y => cases xs <;> simp [jeq] at hj
      | arr ys => cases xs <;> simp [jeq] at hj

/-- The canonical form behind Python equality in the model: booleans and
numbers collapse to their numeric value. -/
def canon (v : JVal) : JVal :=
  match jnumOf v with
  | some x => JVal.num x
  | none => v

theorem pyEq_true_iff (a b : JVal) : pyEq a b = true ↔ canon a = canon b := by
  unfold pyEq canon
  rcases ha : jnumOf a with _ | x <;> rcases hb : jnumOf b with _ | y
  · rw [jeq_eq_true_iff]
  · rw [jeq_eq_true_iff]
    constructor
    · intro h
      rw [h] at ha
      rw [ha] at hb
      cases hb
    · intro h
      cases a <;> simp [jnumOf] at ha <;> simp_all
  · rw [jeq_eq_true_iff]
    constructor
    · intro h
      rw [h] at ha
      rw [ha] at hb
      cases hb
    · intro h
      cases b <;> simp [jnumOf] at hb <;> simp_all
  · simp only [beq_iff_eq]
    constructor
    · intro h
      rw [h]
    · intro h
      injection h

/-!
## services/module_status.py: alarm tracking (record_module_alarm)
-/

/-- Python `a or b` on payload values. -/
def orDefaultJ (v : Option JVal) (d : JVal) : JVal :=
  match v with
  | some x => if truthy x then x else d
  | none => d

/-- The `alarm_payload = payload.get("alarm") or an empty dict` extraction
(a truthy non-dict alarm value would raise in the source and is outside
the dict model). -/
def alarmFragOf (payload : Obj) : Obj :=
  match objGet payload "alarm" with
  | some (.obj o) => o
  | _ => []

/-- The alarm code of a frame as read by `record_module_alarm`. -/
def frameAlarmCode (payload : Obj) : JVal :=
  (objGet (alarmFragOf payload) "code").getD JVal.null

/-- The normalized active flag: Python `bool(payload.get("active"))`. -/
def frameAlarmActive (payload : Obj) : Bool :=
  truthy ((objGet (alarmFragOf payload) "active").getD JVal.null)

/-- Model of `_normalize_alarm_payload`: severity defaults to warning,
message falls back to the code, the active flag is coerced to a boolean,
and the gateway receipt time is recorded. -/
def normalize_alarm_payload (p : Obj) (received_at : String) : Obj :=
  [("code", (objGet p "code").getD JVal.null),
   ("severity", orDefaultJ (objGet p "severity") (JVal.str "warning")),
   ("active", JVal.bool (truthy ((objGet p "active").getD JVal.null))),
   ("message", orDefaultJ (objGet p "message") ((objGet p "code").getD JVal.null)),
   ("timestamp_s", (objGet p "timestamp_s").getD JVal.null),
   ("meta", (objGet p "meta").getD JVal.null),
   ("received_at", JVal.str received_at)]

/-- The stored code of an alarm entry, as compared by
`entry.get("code") != code`. -/
def codeOf (e : Obj) : JVal := (objGet e "code").getD JVal.null

/-- Model of `record_module_alarm` acting on the stored alarm list of a
module record.  The received_at argument models the gateway clock reading
and enriched_meta the value `_enrich_alarm_meta_with_heater_snapshot`
writes into the meta field of a thermistor_mismatch alarm (that helper
touches no other field of the normalized entry, so its computation from
the module's heater snapshot is kept abstract here). -/
def record_module_alarm (alarms : List Obj) (payload : Obj)
    (received_at : String) (enriched_meta : JVal) : List Obj :=
  let alarm_payload := alarmFragOf payload
  let code := (objGet alarm_payload "code").getD JVal.null
  if !truthy code then alarms
  else
    let normalized := normalize_alarm_payload alarm_payload received_at
    let normalized :=
      match code with
      | .str s =>
          if s = "thermistor_mismatch" then objSet normalized "meta" enriched_meta
          else normalized
      | _ => normalized
    let without_code := alarms.filter (fun e => !pyEq (codeOf e) code)
    if truthy ((objGet alarm_payload "active").getD JVal.null) then
      without_code ++ [normalized]
    else without_code

/-- The number of stored alarm entries whose code compares equal to the
given code under Python equality. -/
def countCode (alarms : List Obj) (c : JVal) : ℕ :=
  (alarms.filter (fun e => pyEq (codeOf e) c)).length

theorem pyEq_chain (x c code : JVal) (h1 : pyEq x c = true)
    (h2 : pyEq c code = true) : pyEq x code = true := by
  rw [pyEq_true_iff] at *
  rw [h1, h2]

theorem pyEq_symm_true (a b : JVal) (h : pyEq a b = true) : pyEq b a = true := by
  rw [pyEq_true_iff] at *
  rw [h]

theorem filter_code_after_removal_ne (alarms : List Obj) (code c : JVal)
    (h : pyEq c code = false) :
    (alarms.filter (fun e => !pyEq (codeOf e) code)).filter
        (fun e => pyEq (codeOf e) c) =
      alarms.filter (fun e => pyEq (codeOf e) c) := by
  induction alarms with
  | nil => rfl
  | cons e rest ih =>
    by_cases hc : pyEq (codeOf e) c = true
    · have hcode : pyEq (codeOf e) code = false := by
        rcases hcd : pyEq (codeOf e) code with _ | _
        · rfl
        · exfalso
          have := pyEq_chain c (codeOf e) code (pyEq_symm_true _ _ hc) hcd
          rw [this] at h
          cases h
      simp [List.filter_cons, hcode, hc, ih]
    · have hc' : pyEq (codeOf e) c = false := by simpa using hc
      by_cases hcd : pyEq (codeOf e) code = true
      · simp [List.filter_cons, hcd, hc', ih]
      · have hcd' : pyEq (codeOf e) code = false := by simpa using hcd
        simp [List.filter_cons, hcd', hc', ih]

theorem filter_code_after_removal_self (alarms : List Obj) (code c : JVal)
    (h : pyEq c code = true) :
    (alarms.filter (fun e => !pyEq (codeOf e) code)).filter
        (fun e => pyEq (codeOf e) c) = [] := by
  induction alarms with
  | nil => rfl
  | cons e rest ih =>
    by_cases hcd : pyEq (codeOf e) code = true
    · simp only [List.filter_cons, hcd, Bool.not_true, if_false]
      exact ih
    · have hcd' : pyEq (codeOf e) code = false := by simpa using hcd
      have hc : pyEq (codeOf e) c = false := by
        rcases hcc : pyEq (codeOf e) c with _ | _
        · rfl
        · exfalso
          have := pyEq_chain (codeOf e) c code hcc h
          rw [this] at hcd'
          cases hcd'
      simp [List.filter_cons, hcd', hc, ih]

theorem codeOf_normalized (p : Obj) (ra : String) (em : JVal) :
    codeOf (normalize_alarm_payload p ra) = (objGet p "code").getD JVal.null := by
  rfl

theorem codeOf_normalized_meta (p : Obj) (ra : String) (em : JVal) :
    codeOf (objSet (normalize_alarm_payload p ra) "meta" em) =
      (objGet p "code").getD JVal.null := by
  unfold codeOf
  rw [objGet_objSet_ne _ _ _ _ (by decide)]
  rfl

theorem countCode_append (a b : List Obj) (c : JVal) :
    countCode (a ++ b) c = countCode a c + countCode b c := by
  simp [countCode, List.filter_append]

theorem countCode_singleton (e : Obj) (c : JVal) :
    countCode [e] c = if pyEq (codeOf e) c then 1 else 0 := by
  by_cases h : pyEq (codeOf e) c = true
  · simp [countCode, List.filter_cons, h]
  · have h' : pyEq (codeOf e) c = false := by simpa using h
    simp [countCode, List.filter_cons, h']

/-- The normalized entry `record_module_alarm` appends for a frame with a
truthy code (including the meta enrichment applied to the
thermistor_mismatch code). -/
def normalizedAlarmEntry (payload : Obj) (ra : String) (em : JVal) : Obj :=
  match (objGet (alarmFragOf payload) "code").getD JVal.null with
  | .str s =>
      if s = "thermistor_mismatch" then
        objSet (normalize_alarm_payload (alarmFragOf payload) ra) "meta" em
      else normalize_alarm_payload (alarmFragOf payload) ra
  | _ => normalize_alarm_payload (alarmFragOf payload) ra

theorem codeOf_normalizedAlarmEntry (payload : Obj) (ra : String) (em : JVal) :
    codeOf (normalizedAlarmEntry payload ra em) = frameAlarmCode payload := by
  unfold normalizedAlarmEntry
  rcases hc : (objGet (alarmFragOf payload) "code").getD JVal.null
    with _ | b | q | s | xs | fs
  · rfl
  · rfl
  · rfl
  · by_cases hs : s = "thermistor_mismatch"
    · simp only [hs, if_true]
      rw [codeOf_normalized_meta]
      rfl
    · simp only [hs, if_false]
      rfl
  · rfl
  · rfl

theorem record_module_alarm_eq (alarms : List Obj) (payload : Obj)
    (ra : String) (em : JVal)
    (ht : truthy (frameAlarmCode payload) = true) :
    record_module_alarm alarms payload ra em =
      (if frameAlarmActive payload then
        alarms.filter
          (fun e => !pyEq (codeOf e) (frameAlarmCode payload)) ++
          [normalizedAlarmEntry payload ra em]
      else
        alarms.filter
          (fun e => !pyEq (codeOf e) (frameAlarmCode payload))) := by
  have hfold : (objGet (alarmFragOf payload) "code").getD JVal.null =
      frameAlarmCode payload := rfl
  have hfold2 : truthy ((objGet (alarmFragOf payload) "active").getD
      JVal.null) = frameAlarmActive payload := rfl
  simp only [record_module_alarm, hfold, hfold2, ht, Bool.not_true,
    Bool.false_eq_true, if_false]
  unfold normalizedAlarmEntry
  rw [hfold]

theorem record_module_alarm_count_eq (alarms : List Obj) (payload : Obj)
    (ra : String) (em : JVal)
    (ht : truthy (frameAlarmCode payload) = true) :
    countCode (record_module_alarm alarms payload ra em)
        (frameAlarmCode payload) =
      (if frameAlarmActive payload then 1 else 0) := by
  rw [record_module_alarm_eq alarms payload ra em ht]
  have hself := filter_code_after_removal_self alarms (frameAlarmCode payload)
    (frameAlarmCode payload) (pyEq_refl _)
  by_cases ha : frameAlarmActive payload
  · simp only [ha, if_true]
    rw [countCode_append, countCode_singleton, codeOf_normalizedAlarmEntry,
      pyEq_refl]
    have hzero : countCode (alarms.filter
        (fun e => !pyEq (codeOf e) (frameAlarmCode payload)))
        (frameAlarmCode payload) = 0 := by
      unfold countCode
      rw [hself]
      rfl
    rw [hzero]
    rfl
  · simp only [ha, Bool.false_eq_true, if_false]
    unfold countCode
    rw [hself]
    rfl

theorem record_module_alarm_no_code (alarms : List Obj) (payload : Obj)
    (ra : String) (em : JVal)
    (ht : truthy (frameAlarmCode payload) = false) :
    record_module_alarm alarms payload ra em = alarms := by
  have hfold : (objGet (alarmFragOf payload) "code").getD JVal.null =
      frameAlarmCode payload := rfl
  simp only [record_module_alarm, hfold, ht, Bool.not_false, if_true]

/-- Claim C7: the stored alarm list holds at most one entry per code;
processing an alarm frame replaces any entry with the same code, keeps the
new entry only when active is true, removes the code entirely when active
is false, leaves entries with other codes untouched, and processing the
same active alarm twice leaves exactly one entry for that code. -/
theorem record_module_alarm_spec :
    (∀ (alarms : List Obj) (payload : Obj) (ra : String) (em c : JVal),
      countCode alarms c ≤ 1 →
      countCode (record_module_alarm alarms payload ra em) c ≤ 1) ∧
    (∀ (alarms : List Obj) (payload : Obj) (ra : String) (em : JVal),
      truthy (frameAlarmCode payload) = true →
      frameAlarmActive payload = true →
      countCode (record_module_alarm alarms payload ra em)
        (frameAlarmCode payload) = 1) ∧
    (∀ (alarms : List Obj) (payload : Obj) (ra ra2 : String) (em em2 : JVal),
      truthy (frameAlarmCode payload) = true →
      frameAlarmActive payload = true →
      countCode (record_module_alarm
        (record_module_alarm alarms payload ra em) payload ra2 em2)
        (frameAlarmCode payload) = 1) ∧
    (∀ (alarms : List Obj) (payload : Obj) (ra : String) (em : JVal),
      truthy (frameAlarmCode payload) = true →
      frameAlarmActive payload = false →
      countCode (record_module_alarm alarms payload ra em)
        (frameAlarmCode payload) = 0) ∧
    (∀ (alarms : List Obj) (payload : Obj) (ra : String) (em c : JVal),
      truthy (frameAlarmCode payload) = true →
      pyEq c (frameAlarmCode payload) = false →
      (record_module_alarm alarms payload ra em).filter
          (fun e => pyEq (codeOf e) c) =
        alarms.filter (fun e => pyEq (codeOf e) c)) := by
  have hother : ∀ (alarms : List Obj) (payload : Obj) (ra : String)
      (em c : JVal),
      truthy (frameAlarmCode payload) = true →
      pyEq c (frameAlarmCode payload) = false →
      (record_module_alarm alarms payload ra em).filter
          (fun e => pyEq (codeOf e) c) =
        alarms.filter (fun e => pyEq (codeOf e) c) := by
    intro alarms payload ra em c ht hne
    rw [record_module_alarm_eq alarms payload ra em ht]
    have hsingle : List.filter (fun e => pyEq (codeOf e) c)
        [normalizedAlarmEntry payload ra em] = [] := by
      have hcn : pyEq (codeOf (normalizedAlarmEntry payload ra em)) c =
          false := by
        rw [codeOf_normalizedAlarmEntry]
        rcases hx : pyEq (frameAlarmCode payload) c with _ | _
        · rfl
        · exfalso
          have := pyEq_symm_true _ _ hx
          rw [this] at hne
          cases hne
      simp [List.filter_cons, hcn]
    by_cases ha : frameAlarmActive payload
    · simp only [ha, if_true, List.filter_append, hsingle, List.append_nil]
      exact filter_code_after_removal_ne alarms _ c hne
    · simp only [ha, Bool.false_eq_true, if_false]
      exact filter_code_after_removal_ne alarms _ c hne
  refine ⟨?_, ?_, ?_, ?_, hother⟩
  · intro alarms payload ra em c hinv
    by_cases ht : truthy (frameAlarmCode payload) = true
    · by_cases hc : pyEq c (frameAlarmCode payload) = true
      · have hcount := record_module_alarm_count_eq alarms payload ra em ht
        have hcc : countCode (record_module_alarm alarms payload ra em) c =
            countCode (record_module_alarm alarms payload ra em)
              (frameAlarmCode payload) := by
          unfold countCode
          congr 1
          apply List.filter_congr
          intro e he
          rcases hx : pyEq (codeOf e) c with _ | _
          · rcases hy : pyEq (codeOf e) (frameAlarmCode payload) with _ | _
            · rfl
            · exfalso
              have := pyEq_chain (codeOf e) (frameAlarmCode payload) c hy
                (pyEq_symm_true _ _ hc)
              rw [this] at hx
              cases hx
          · rw [pyEq_chain (codeOf e) c (frameAlarmCode payload) hx hc]
        rw [hcc, hcount]
        by_cases ha : frameAlarmActive payload <;> simp [ha]
      · have hc' : pyEq c (frameAlarmCode payload) = false := by simpa using hc
        have := hother alarms payload ra em c ht hc'
        unfold countCode
        rw [this]
        exact hinv
    · have ht' : truthy (frameAlarmCode payload) = false := by simpa using ht
      rw [record_module_alarm_no_code alarms payload ra em ht']
      exact hinv
  · intro alarms payload ra em ht ha
    rw [record_module_alarm_count_eq alarms payload ra em ht, if_pos ha]
  · intro alarms payload ra ra2 em em2 ht ha
    rw [record_module_alarm_count_eq _ payload ra2 em2 ht, if_pos ha]
  · intro alarms payload ra em ht ha
    rw [record_module_alarm_count_eq alarms payload ra em ht, ha]
    rfl

/-- Witness for claim C7: sending an active overheat alarm twice to an
empty record leaves exactly one entry for that code, a following inactive
overheat alarm removes it, and an unrelated stored code is preserved. -/
theorem record_module_alarm_spec_witness :
    countCode (record_module_alarm
      (record_module_alarm []
        [("alarm", JVal.obj [("code", JVal.str "overheat"),
          ("active", JVal.bool true)])] "t0" JVal.null)
      [("alarm", JVal.obj [("code", JVal.str "overheat"),
        ("active", JVal.bool true)])] "t1" JVal.null)
      (frameAlarmCode [("alarm", JVal.obj [("code", JVal.str "overheat"),
        ("active", JVal.bool true)])]) = 1 ∧
    countCode (record_module_alarm
      [[("code", JVal.str "overheat")]]
      [("alarm", JVal.obj [("code", JVal.str "overheat"),
        ("active", JVal.bool false)])] "t2" JVal.null)
      (frameAlarmCode [("alarm", JVal.obj [("code", JVal.str "overheat"),
        ("active", JVal.bool false)])]) = 0 ∧
    (record_module_alarm [[("code", JVal.str "leak")]]
      [("alarm", JVal.obj [("code", JVal.str "overheat"),
        ("active", JVal.bool true)])] "t3" JVal.null).filter
      (fun e => pyEq (codeOf e) (JVal.str "leak")) =
      [[("code", JVal.str "leak")]].filter
        (fun e => pyEq (codeOf e) (JVal.str "leak")) := by
  refine ⟨?_, ?_, ?_⟩
  · exact record_module_alarm_spec.2.2.1 []
      [("alarm", JVal.obj [("code", JVal.str "overheat"),
        ("active", JVal.bool true)])] "t0" "t1" JVal.null JVal.null
      (by rfl) (by rfl)
  · exact record_module_alarm_spec.2.2.2.1
      [[("code", JVal.str "overheat")]]
      [("alarm", JVal.obj [("code", JVal.str "overheat"),
        ("active", JVal.bool false)])] "t2" JVal.null
      (by rfl) (by rfl)
  · exact record_module_alarm_spec.2.2.2.2
      [[("code", JVal.str "leak")]]
      [("alarm", JVal.obj [("code", JVal.str "overheat"),
        ("active", JVal.bool true)])] "t3" JVal.null (JVal.str "leak")
      (by rfl)
      (by simp [pyEq, jnumOf, frameAlarmCode, alarmFragOf, objGet,
        List.find?, jeq])

/-!
## api/websocket.py: frame normalization
-/

/-- Model of `_build_envelope_defaults`: envelope fields that are
non-blank strings seed the defaults; a sent_at also seeds timestamp and
recorded_at through setdefault. -/
def build_envelope_defaults (message : Obj) : Obj :=
  let d : Obj := []
  let d := match objGet message "module_id" with
    | some (.str s) =>
        if pyStrip s = "" then d
        else d ++ [("module", JVal.str s), ("module_id", JVal.str s)]
    | _ => d
  let d := match objGet message "submodule_id" with
    | some (.str s) =>
        if pyStrip s = "" then d else d ++ [("submodule_id", JVal.str s)]
    | _ => d
  let d := match objGet message "protocol" with
    | some (.str s) =>
        if pyStrip s = "" then d else d ++ [("protocol", JVal.str s)]
    | _ => d
  match objGet message "sent_at" with
  | some (.str s) =>
      if pyStrip s = "" then d
      else
        objSetdefault (objSetdefault (d ++ [("sent_at", JVal.str s)])
          "timestamp" (JVal.str s)) "recorded_at" (JVal.str s)
  | _ => d

/-- Model of `_apply_envelope_defaults`: setdefault each default into the
target, never overwriting a present key. -/
def apply_envelope_defaults (target defaults : Obj) : Obj :=
  defaults.foldl (fun acc p => objSetdefault acc p.1 p.2) target

/-- The nested payload extraction `message.get("payload") if
isinstance(..., dict) else None`. -/
def payloadFragOf (message : Obj) : Option Obj :=
  match objGet message "payload" with
  | some (.obj o) => some o
  | _ => none

/-- Python `msg_type == "alarm"` on the optional type value. -/
def msgTypeIsAlarm : Option JVal → Bool
  | some (.str s) => s = "alarm"
  | _ => false

/-- Model of `_normalize_incoming_frame` for dict messages: flat frames
pass through unchanged; enveloped alarm frames become the envelope
defaults with the nested object under an alarm key; other enveloped
frames are the nested object with the defaults filled in where absent. -/
def normalize_incoming_frame (message : Obj) : Option JVal × Obj :=
  let msg_type := objGet message "type"
  let defaults := build_envelope_defaults message
  match payloadFragOf message with
  | none => (msg_type, message)
  | some p =>
      if msgTypeIsAlarm msg_type then
        (msg_type, objSet defaults "alarm" (JVal.obj p))
      else
        (msg_type, apply_envelope_defaults p defaults)

theorem objGet_apply_envelope_defaults (t d : Obj) (k : String) :
    objGet (apply_envelope_defaults t d) k =
      (objGet t k).orElse (fun _ => objGet d k) := by
  induction d generalizing t with
  | nil =>
    show objGet t k = (objGet t k).orElse (fun _ => objGet ([] : Obj) k)
    rcases h : objGet t k with _ | v <;> simp [h, objGet, Option.orElse]
  | cons p rest ih =>
    have hstep : apply_envelope_defaults t (p :: rest) =
        apply_envelope_defaults (objSetdefault t p.1 p.2) rest := rfl
    rw [hstep, ih, objGet_objSetdefault]
    rcases h : objGet t k with _ | v
    · by_cases hk : k = p.1
      · simp [h, hk, objGet, List.find?, Option.orElse]
      · have hd : (decide (p.1 = k)) = false :=
          decide_eq_false (fun hc => hk hc.symm)
        simp [h, hk, objGet, List.find?, hd, Option.orElse]
    · simp [h, Option.orElse]

/-- Claim C9: for an enveloped alarm frame the normalized payload is the
envelope-derived defaults with the nested object placed under the alarm
key, and for every other enveloped frame it is the nested object with the
defaults filled in only for keys the nested object lacks, never
overwriting a present field. -/
theorem normalize_incoming_frame_spec :
    (∀ (message p : Obj),
      payloadFragOf message = some p →
      msgTypeIsAlarm (objGet message "type") = true →
      objGet (normalize_incoming_frame message).2 "alarm" = some (JVal.obj p) ∧
      (∀ k, k ≠ "alarm" →
        objGet (normalize_incoming_frame message).2 k =
          objGet (build_envelope_defaults message) k)) ∧
    (∀ (message p : Obj),
      payloadFragOf message = some p →
      msgTypeIsAlarm (objGet message "type") = false →
      (∀ k, objHas p k = true →
        objGet (normalize_incoming_frame message).2 k = objGet p k) ∧
      (∀ k, objHas p k = false →
        objGet (normalize_incoming_frame message).2 k =
          objGet (build_envelope_defaults message) k)) := by
  constructor
  · intro message p hp halarm
    have hres : (normalize_incoming_frame message).2 =
        objSet (build_envelope_defaults message) "alarm" (JVal.obj p) := by
      simp only [normalize_incoming_frame, hp, halarm, if_true]
    rw [hres]
    exact ⟨objGet_objSet_self _ _ _,
      fun k hk => objGet_objSet_ne _ _ _ _ hk⟩
  · intro message p hp halarm
    have hres : (normalize_incoming_frame message).2 =
        apply_envelope_defaults p (build_envelope_defaults message) := by
      simp only [normalize_incoming_frame, hp, halarm, Bool.false_eq_true,
        if_false]
    rw [hres]
    constructor
    · intro k hk
      rw [objGet_apply_envelope_defaults]
      have := (objHas_iff_isSome p k).mp hk
      rcases hv : objGet p k with _ | v
      · rw [hv] at this; cases this
      · simp [Option.orElse]
    · intro k hk
      rw [objGet_apply_envelope_defaults]
      have hnone : objGet p k = none := (objGet_none_iff p k).mpr hk
      simp [hnone, Option.orElse]

/-- Witness for claim C9: an enveloped alarm frame lands under the alarm
key next to the module default, and an enveloped status frame keeps its
own module field while absent keys are filled from the envelope. -/
theorem normalize_incoming_frame_spec_witness :
    objGet (normalize_incoming_frame
      [("type", JVal.str "alarm"), ("module_id", JVal.str "m1"),
        ("payload", JVal.obj [("code", JVal.str "overheat")])]).2 "alarm" =
      some (JVal.obj [("code", JVal.str "overheat")]) ∧
    objGet (normalize_incoming_frame
      [("type", JVal.str "status"), ("module_id", JVal.str "m1"),
        ("payload", JVal.obj [("module", JVal.str "inner")])]).2 "module" =
      objGet [("module", JVal.str "inner")] "module" ∧
    objGet (normalize_incoming_frame
      [("type", JVal.str "status"), ("module_id", JVal.str "m1"),
        ("payload", JVal.obj [("module", JVal.str "inner")])]).2 "module_id" =
      objGet (build_envelope_defaults
        [("type", JVal.str "status"), ("module_id", JVal.str "m1"),
          ("payload", JVal.obj [("module", JVal.str "inner")])]) "module_id" := by
  refine ⟨?_, ?_, ?_⟩
  · exact (normalize_incoming_frame_spec.1
      [("type", JVal.str "alarm"), ("module_id", JVal.str "m1"),
        ("payload", JVal.obj [("code", JVal.str "overheat")])]
      [("code", JVal.str "overheat")] rfl rfl).1
  · exact (normalize_incoming_frame_spec.2
      [("type", JVal.str "status"), ("module_id", JVal.str "m1"),
        ("payload", JVal.obj [("module", JVal.str "inner")])]
      [("module", JVal.str "inner")] rfl rfl).1 "module" rfl
  · exact (normalize_incoming_frame_spec.2
      [("type", JVal.str "status"), ("module_id", JVal.str "m1"),
        ("payload", JVal.obj [("module", JVal.str "inner")])]
      [("module", JVal.str "inner")] rfl rfl).2 "module_id" rfl

/-!
## api/routes.py: cycle history aggregates
-/

/-- A persisted cycle log row as read by the cycle_history endpoint (the
fields the aggregates consume). -/
structure CycleLogRow where
  module_id : String
  cycle_type : String
  duration_ms : Option ℤ
deriving DecidableEq, Repr

/-- The per-category aggregate dict assembled by `summarize` inside
cycle_history. -/
structure CycleStats where
  count : ℕ
  total_duration_ms : ℤ
  avg_duration_ms : ℚ
  frequency_per_hour : ℚ
deriving DecidableEq, Repr

/-- Model of the inner `summarize` helper of cycle_history: a null
duration contributes zero to the total through `entry.duration_ms or 0`
while the entry still counts. -/
def summarize (items : List CycleLogRow) (clamped_window : ℕ) : CycleStats :=
  let count := items.length
  let total := (items.map (fun e => e.duration_ms.getD 0)).sum
  { count := count
  , total_duration_ms := total
  , avg_duration_ms := if count ≠ 0 then (total : ℚ) / count else 0
  , frequency_per_hour :=
      if clamped_window ≠ 0 then (count : ℚ) / clamped_window else 0 }

/-- The pump-only average fill seconds added to the ato stats:
`avg_duration_ms / 1000` when any pump cycle exists. -/
def avg_fill_seconds (stats : CycleStats) : ℚ :=
  if stats.count ≠ 0 then stats.avg_duration_ms / 1000 else 0

theorem sum_getD_eq_sum_filterMap (items : List CycleLogRow) :
    (items.map (fun e => e.duration_ms.getD 0)).sum =
      (items.filterMap (fun e => e.duration_ms)).sum := by
  induction items with
  | nil => rfl
  | cons e rest ih =>
    rcases h : e.duration_ms with _ | d
    · simp [h, ih]
    · simp [h, ih]

theorem filterMap_duration_filter_isSome (items : List CycleLogRow) :
    (items.filter (fun e => e.duration_ms.isSome)).filterMap
        (fun e => e.duration_ms) =
      items.filterMap (fun e => e.duration_ms) := by
  induction items with
  | nil => rfl
  | cons e rest ih =>
    rcases h : e.duration_ms with _ | d
    · simp [List.filter_cons, h, ih]
    · simp [List.filter_cons, h, ih]

/-- Claim C10: in the cycle-history aggregates a null duration contributes
zero to the category total but still counts toward the entry count, so the
average duration (total over count) and the pump-only average fill seconds
are pulled toward zero whenever part of the window lacks durations. -/
theorem cycle_history_null_durations_dilute :
    (∀ (items : List CycleLogRow) (w : ℕ),
      (summarize items w).count = items.length ∧
      (summarize items w).total_duration_ms =
        (items.filterMap (fun e => e.duration_ms)).sum ∧
      (items ≠ [] →
        (summarize items w).avg_duration_ms =
          ((((items.filterMap (fun e => e.duration_ms)).sum : ℤ) : ℚ)) /
            items.length) ∧
      (items ≠ [] →
        avg_fill_seconds (summarize items w) =
          (summarize items w).avg_duration_ms / 1000)) ∧
    (∀ (items : List CycleLogRow) (w : ℕ),
      (∀ d ∈ items.filterMap (fun e => e.duration_ms), 0 ≤ d) →
      items.filter (fun e => e.duration_ms.isSome) ≠ [] →
      (summarize items w).avg_duration_ms ≤
        (summarize (items.filter (fun e => e.duration_ms.isSome))
          w).avg_duration_ms) ∧
    (∀ (items : List CycleLogRow) (w : ℕ),
      0 < (items.filterMap (fun e => e.duration_ms)).sum →
      (∃ e ∈ items, e.duration_ms = none) →
      (summarize items w).avg_duration_ms <
        (summarize (items.filter (fun e => e.duration_ms.isSome))
          w).avg_duration_ms) := by
  have hcount_lt : ∀ (items : List CycleLogRow),
      (∃ e ∈ items, e.duration_ms = none) →
      (items.filter (fun e => e.duration_ms.isSome)).length <
        items.length := by
    intro items hx
    rcases hx with ⟨e, he, hnone⟩
    apply lt_of_le_of_ne (List.length_filter_le _ _)
    intro hlen
    have := (List.filter_length_eq_length).mp hlen e he
    rw [hnone] at this
    cases this
  refine ⟨?_, ?_, ?_⟩
  · intro items w
    refine ⟨rfl, sum_getD_eq_sum_filterMap items, ?_, ?_⟩
    · intro hne
      have hl : items.length ≠ 0 :=
        Nat.pos_iff_ne_zero.mp (List.length_pos.mpr hne)
      simp only [summarize, hl, if_true, ne_eq, not_false_iff,
        sum_getD_eq_sum_filterMap]
    · intro hne
      have hl : items.length ≠ 0 :=
        Nat.pos_iff_ne_zero.mp (List.length_pos.mpr hne)
      simp only [summarize, avg_fill_seconds, hl, ne_eq, not_false_iff,
        if_true]
  · intro items w hnn hfil
    set fitems := items.filter (fun e => e.duration_ms.isSome) with hfdef
    have hm : 0 < fitems.length := List.length_pos.mpr hfil
    have hn : 0 < items.length :=
      lt_of_lt_of_le hm (hfdef ▸ List.length_filter_le _ _)
    have htot : (fitems.map (fun e => e.duration_ms.getD 0)).sum =
        (items.map (fun e => e.duration_ms.getD 0)).sum := by
      rw [sum_getD_eq_sum_filterMap, sum_getD_eq_sum_filterMap, hfdef,
        filterMap_duration_filter_isSome]
    have htotnn : (0 : ℤ) ≤ (items.map (fun e => e.duration_ms.getD 0)).sum := by
      rw [sum_getD_eq_sum_filterMap]
      exact List.sum_nonneg hnn
    simp only [summarize, Nat.pos_iff_ne_zero.mp hm, Nat.pos_iff_ne_zero.mp hn,
      ne_eq, not_false_iff, if_true, htot]
    apply div_le_div_of_nonneg_left
    · exact_mod_cast htotnn
    · exact_mod_cast hm
    · exact_mod_cast (hfdef ▸ List.length_filter_le
        (fun e : CycleLogRow => e.duration_ms.isSome) items)
  · intro items w hpos hex0
    rcases hex0 with ⟨e, he, hnone⟩
    set fitems := items.filter (fun e => e.duration_ms.isSome) with hfdef
    have hmlt : fitems.length < items.length :=
      hcount_lt items ⟨e, he, hnone⟩
    have hn : 0 < items.length := lt_of_le_of_lt (Nat.zero_le _) hmlt
    have hm : 0 < fitems.length := by
      by_contra hz
      have : fitems.length = 0 := by omega
      have hfe : fitems = [] := List.length_eq_zero.mp this
      have : (items.filterMap (fun e => e.duration_ms)).sum = 0 := by
        rw [← filterMap_duration_filter_isSome, ← hfdef, hfe]
        rfl
      rw [this] at hpos
      exact lt_irrefl 0 hpos
    have htot : (fitems.map (fun e => e.duration_ms.getD 0)).sum =
        (items.map (fun e => e.duration_ms.getD 0)).sum := by
      rw [sum_getD_eq_sum_filterMap, sum_getD_eq_sum_filterMap, hfdef,
        filterMap_duration_filter_isSome]
    have htotpos : (0 : ℤ) < (items.map (fun e => e.duration_ms.getD 0)).sum := by
      rw [sum_getD_eq_sum_filterMap]
      exact hpos
    simp only [summarize, Nat.pos_iff_ne_zero.mp hm, Nat.pos_iff_ne_zero.mp hn,
      ne_eq, not_false_iff, if_true, htot]
    apply div_lt_div_of_pos_left
    · exact_mod_cast htotpos
    · exact_mod_cast hm
    · exact_mod_cast hmlt

/-- Witness for claim C10: two pump cycles of 1000 ms plus one cycle with
a null duration count three entries totalling 2000 ms, so the average is
pulled below the average of the two timed cycles. -/
theorem cycle_history_null_durations_dilute_witness :
    (summarize [⟨"a", "pump_activation", some 1000⟩,
      ⟨"a", "pump_activation", some 1000⟩,
      ⟨"a", "pump_activation", none⟩] 24).count = 3 ∧
    (summarize [⟨"a", "pump_activation", some 1000⟩,
      ⟨"a", "pump_activation", some 1000⟩,
      ⟨"a", "pump_activation", none⟩] 24).total_duration_ms =
      ([⟨"a", "pump_activation", some 1000⟩,
        ⟨"a", "pump_activation", some 1000⟩,
        (⟨"a", "pump_activation", none⟩ : CycleLogRow)].filterMap
          (fun e => e.duration_ms)).sum ∧
    (summarize [⟨"a", "pump_activation", some 1000⟩,
      ⟨"a", "pump_activation", some 1000⟩,
      ⟨"a", "pump_activation", none⟩] 24).avg_duration_ms <
      (summarize ([⟨"a", "pump_activation", some 1000⟩,
        ⟨"a", "pump_activation", some 1000⟩,
        (⟨"a", "pump_activation", none⟩ : CycleLogRow)].filter
          (fun e => e.duration_ms.isSome)) 24).avg_duration_ms := by
  refine ⟨?_, ?_, ?_⟩
  · exact (cycle_history_null_durations_dilute.1 _ 24).1
  · exact (cycle_history_null_durations_dilute.1 _ 24).2.1
  · exact cycle_history_null_durations_dilute.2.2 _ 24 (by decide)
      ⟨⟨"a", "pump_activation", none⟩, by decide, rfl⟩

/-!
## services/module_status.py: purge_module_records

The purge path touches the in-memory module store, the spool usage table,
the module snapshot table and the module database table.  The cycle log
table has no deletion call on this path.
-/

/-- A persisted spool usage row (schemas/spool_usage.py), with the
recording instant as an epoch rational. -/
structure UsageRow where
  module_id : String
  delta_edges : ℚ
  delta_mm : ℚ
  total_used_edges : ℚ
  recorded_at : ℚ
deriving DecidableEq, Repr

/-- A persisted module snapshot row (schemas/module_snapshot.py). -/
structure SnapshotRow where
  module_id : String
  payload : Obj
  recorded_at : ℚ

/-- A cycle log row tagged with its module id as persisted
(schemas/cycle.py). -/
structure CycleRowFull where
  module_id : String
  cycle_type : String
  duration_ms : Option ℤ
deriving DecidableEq, Repr

/-- The durable state the purge path can reach: the in-memory module
store, the three history tables it touches and the module table. -/
structure Stores where
  module_store : List (String × Obj)
  usage_rows : List UsageRow
  snapshot_rows : List SnapshotRow
  cycle_rows : List CycleRowFull
  db_modules : List (String × Obj)

/-- Membership test on a keyed association list. -/
def alistHasKey {α : Type} (l : List (String × α)) (k : String) : Bool :=
  l.any (fun p => p.1 = k)

/-- Model of `clear_spool_usage_for_module`: delete the module's rows and
report the deleted row count. -/
def clear_spool_usage_for_module (rows : List UsageRow) (mid : String) :
    List UsageRow × ℕ :=
  (rows.filter (fun r => !(r.module_id = mid)),
   (rows.filter (fun r => r.module_id = mid)).length)

/-- Model of `delete_snapshots_for_module`, including its falsy module id
guard. -/
def delete_snapshots_for_module (rows : List SnapshotRow) (mid : String) :
    List SnapshotRow × ℕ :=
  if mid = "" then (rows, 0)
  else
    (rows.filter (fun r => !(r.module_id = mid)),
     (rows.filter (fun r => r.module_id = mid)).length)

/-- Model of `_delete_module_from_db`. -/
def delete_module_from_db (rows : List (String × Obj)) (mid : String) :
    List (String × Obj) × ℕ :=
  (rows.filter (fun p => !(p.1 = mid)),
   (rows.filter (fun p => p.1 = mid)).length)

/-- Model of `purge_module_records`: strip the id, bail out on a blank id,
drop the in-memory record, the usage rows, the snapshot rows and the
module table row, and return the total number of removed records.  No
cycle log deletion happens on this path. -/
def purge_module_records (st : Stores) (module_id : String) : Stores × ℕ :=
  let normalized := pyStrip module_id
  if normalized = "" then (st, 0)
  else
    let removed0 : ℕ := if alistHasKey st.module_store normalized then 1 else 0
    let store2 := st.module_store.filter (fun p => !(p.1 = normalized))
    let usage := clear_spool_usage_for_module st.usage_rows normalized
    let snaps := delete_snapshots_for_module st.snapshot_rows normalized
    let db := delete_module_from_db st.db_modules normalized
    ({ st with
        module_store := store2
        usage_rows := usage.1
        snapshot_rows := snaps.1
        db_modules := db.1 },
     removed0 + usage.2 + snaps.2 + db.2)

theorem filter_ne_self_again {α : Type} (l : List α) (g : α → Bool) :
    (l.filter (fun x => !(g x))).filter (fun x => !(g x)) =
      l.filter (fun x => !(g x)) := by
  induction l with
  | nil => rfl
  | cons x rest ih =>
    rcases h : g x with _ | _
    · simp [List.filter_cons, h, ih]
    · simp [List.filter_cons, h, ih]

theorem filter_eq_after_ne {α : Type} (l : List α) (g : α → Bool) :
    (l.filter (fun x => !(g x))).filter (fun x => g x) = [] := by
  induction l with
  | nil => rfl
  | cons x rest ih =>
    rcases h : g x with _ | _
    · simp [List.filter_cons, h, ih]
    · simp [List.filter_cons, h, ih]

theorem alistHasKey_filter_ne {α : Type} (l : List (String × α)) (k : String) :
    alistHasKey (l.filter (fun p => !(p.1 = k))) k = false := by
  induction l with
  | nil => rfl
  | cons p rest ih =>
    rcases h : (decide (p.1 = k)) with _ | _
    · simpa [alistHasKey, List.filter_cons, h] using ih
    · simpa [alistHasKey, List.filter_cons, h] using ih

/-- A populated state with one module and one dependent row in every
history table, used to exercise the purge path. -/
def purgeDemoState : Stores :=
  { module_store := [("m1", [])]
  , usage_rows := [⟨"m1", 1, 500, 10, 0⟩]
  , snapshot_rows := [⟨"m1", [], 0⟩]
  , cycle_rows := [⟨"m1", "pump_activation", none⟩]
  , db_modules := [("m1", [])] }

/-- Counterexample to claim C1 as stated: purging a module removes its
record, usage rows and snapshot rows, but its dependent cycle-log row
survives the purge untouched. -/
theorem purge_module_records_counterexample :
    ((purge_module_records purgeDemoState "m1").1.cycle_rows.filter
      (fun r => r.module_id = "m1")).length = 1 ∧
    (purge_module_records purgeDemoState "m1").1.usage_rows = [] ∧
    (purge_module_records purgeDemoState "m1").1.snapshot_rows = [] ∧
    (purge_module_records purgeDemoState "m1").1.module_store = [] ∧
    (purge_module_records purgeDemoState "m1").1.db_modules = [] := by
  refine ⟨rfl, rfl, rfl, rfl, rfl⟩

theorem purge_fixed (st : Stores) (mid : String)
    (h1 : alistHasKey st.module_store (pyStrip mid) = false)
    (h2 : st.usage_rows.filter
      (fun r => r.module_id = pyStrip mid) = [])
    (h3 : st.snapshot_rows.filter
      (fun r => r.module_id = pyStrip mid) = [])
    (h4 : st.db_modules.filter (fun p => p.1 = pyStrip mid) = [])
    (f1 : st.module_store.filter
      (fun p => !(p.1 = pyStrip mid)) = st.module_store)
    (f2 : st.usage_rows.filter
      (fun r => !(r.module_id = pyStrip mid)) = st.usage_rows)
    (f3 : st.snapshot_rows.filter
      (fun r => !(r.module_id = pyStrip mid)) = st.snapshot_rows)
    (f4 : st.db_modules.filter
      (fun p => !(p.1 = pyStrip mid)) = st.db_modules) :
    purge_module_records st mid = (st, 0) := by
  by_cases hb : pyStrip mid = ""
  · simp [purge_module_records, hb]
  · simp only [purge_module_records, hb, if_false,
      clear_spool_usage_for_module, delete_snapshots_for_module,
      delete_module_from_db, h1, h2, h3, h4, f1, f2, f3, f4,
      Bool.false_eq_true, List.length_nil]

/-- Claim C1 amended: purging a module removes its in-memory record, its
module table row and all dependent usage and snapshot rows for the id,
while dependent cycle-log rows are not removed; purging the same id again
removes nothing and reports zero removed. -/
theorem purge_module_records_amended :
    (∀ (st : Stores) (module_id : String),
      pyStrip module_id ≠ "" →
      (purge_module_records st module_id).1.module_store =
        st.module_store.filter
          (fun p => !(p.1 = pyStrip module_id)) ∧
      (purge_module_records st module_id).1.usage_rows =
        st.usage_rows.filter
          (fun r => !(r.module_id = pyStrip module_id)) ∧
      (purge_module_records st module_id).1.snapshot_rows =
        st.snapshot_rows.filter
          (fun r => !(r.module_id = pyStrip module_id)) ∧
      (purge_module_records st module_id).1.db_modules =
        st.db_modules.filter
          (fun p => !(p.1 = pyStrip module_id)) ∧
      (purge_module_records st module_id).1.cycle_rows = st.cycle_rows) ∧
    (∀ (st : Stores) (module_id : String),
      purge_module_records (purge_module_records st module_id).1 module_id =
        ((purge_module_records st module_id).1, 0)) := by
  have hfields : ∀ (st : Stores) (module_id : String),
      pyStrip module_id ≠ "" →
      (purge_module_records st module_id).1.module_store =
        st.module_store.filter (fun p => !(p.1 = pyStrip module_id)) ∧
      (purge_module_records st module_id).1.usage_rows =
        st.usage_rows.filter
          (fun r => !(r.module_id = pyStrip module_id)) ∧
      (purge_module_records st module_id).1.snapshot_rows =
        st.snapshot_rows.filter
          (fun r => !(r.module_id = pyStrip module_id)) ∧
      (purge_module_records st module_id).1.db_modules =
        st.db_modules.filter (fun p => !(p.1 = pyStrip module_id)) ∧
      (purge_module_records st module_id).1.cycle_rows = st.cycle_rows := by
    intro st module_id hne
    refine ⟨?_, ?_, ?_, ?_, ?_⟩ <;>
      simp [purge_module_records, hne, clear_spool_usage_for_module,
        delete_snapshots_for_module, delete_module_from_db]
  refine ⟨hfields, ?_⟩
  intro st module_id
  by_cases hb : pyStrip module_id = ""
  · have hfirst : purge_module_records st module_id = (st, 0) := by
      simp [purge_module_records, hb]
    rw [hfirst]
    simp [purge_module_records, hb]
  · rcases hfields st module_id hb with ⟨g1, g2, g3, g4, g5⟩
    apply purge_fixed
    · rw [g1]
      exact alistHasKey_filter_ne st.module_store (pyStrip module_id)
    · rw [g2]
      exact filter_eq_after_ne st.usage_rows
        (fun r => r.module_id = pyStrip module_id)
    · rw [g3]
      exact filter_eq_after_ne st.snapshot_rows
        (fun r => r.module_id = pyStrip module_id)
    · rw [g4]
      exact filter_eq_after_ne st.db_modules
        (fun p => p.1 = pyStrip module_id)
    · rw [g1]
      exact filter_ne_self_again st.module_store
        (fun p => p.1 = pyStrip module_id)
    · rw [g2]
      exact filter_ne_self_again st.usage_rows
        (fun r => r.module_id = pyStrip module_id)
    · rw [g3]
      exact filter_ne_self_again st.snapshot_rows
        (fun r => r.module_id = pyStrip module_id)
    · rw [g4]
      exact filter_ne_self_again st.db_modules
        (fun p => p.1 = pyStrip module_id)

/-- Witness for the amended claim C1: on the populated demo state the
purge empties every touched table, leaves the cycle row, and a second
purge of the same id is a no-op reporting zero removed. -/
theorem purge_module_records_amended_witness :
    (purge_module_records purgeDemoState "m1").1.usage_rows =
      purgeDemoState.usage_rows.filter
        (fun r => !(r.module_id = pyStrip "m1")) ∧
    (purge_module_records purgeDemoState "m1").1.cycle_rows =
      purgeDemoState.cycle_rows ∧
    purge_module_records
        (purge_module_records purgeDemoState "m1").1 "m1" =
      ((purge_module_records purgeDemoState "m1").1, 0) := by
  refine ⟨?_, ?_, ?_⟩
  · exact (purge_module_records_amended.1 purgeDemoState "m1"
      (by decide)).2.1
  · exact (purge_module_records_amended.1 purgeDemoState "m1"
      (by decide)).2.2.2.2
  · exact purge_module_records_amended.2 purgeDemoState "m1"

/-!
## services/spool_usage.py: startup rehydration

The trace-log replay that rebuilds the usage log after a restart.  A trace
entry models one row returned by get_ws_trace; its timestamp field holds
the result of `_parse_timestamp` on the stored ISO string (string parsing
is abstracted, None marks an unparseable timestamp).
-/

/-- Python `str.lower()` for the ASCII range. -/
def pyCharLower (c : Char) : Char :=
  if c.isUpper then Char.ofNat (c.toNat + 32) else c

/-- Python `str.lower()`. -/
def pyLower (s : String) : String := (s.toList.map pyCharLower).asString

/-- One ws_trace row as consumed by `rehydrate_spool_usage_history`. -/
structure TraceEntry where
  direction : String
  module_id : Option String
  payload : Obj
  timestamp : Option ℚ

/-- The `(payload.get("type") or "").lower()` read (a truthy non-string
type value would raise in the source and is outside the model; falsy
values collapse to the empty string). -/
def frameTypeLower (payload : Obj) : String :=
  match objGet payload "type" with
  | some (.str s) => pyLower s
  | _ => ""

/-- The module id of a trace entry:
`entry.get("module_id") or resolve_module_id(payload)`. -/
def traceModuleOf (e : TraceEntry) : String :=
  match e.module_id with
  | some m => if m = "" then resolve_module_id e.payload (some "unknown") else m
  | none => resolve_module_id e.payload (some "unknown")

/-- The guard chain of the rehydration loop: only rx status frames with a
dict spool fragment, a parseable timestamp not before the cutoff, and a
resolvable module id are considered. -/
def rehydrateEligible (cutoff : ℚ) (e : TraceEntry) : Bool :=
  e.direction = "rx" &&
  frameTypeLower e.payload = "status" &&
  (spoolFragOf e.payload).isSome &&
  (match e.timestamp with
   | some ts => decide (cutoff ≤ ts)
   | none => false) &&
  !(traceModuleOf e = "") && !(traceModuleOf e = "unknown")

/-- Lookup in a keyed association list (a Python dict keyed by module
id). -/
def alistGetKey {α : Type} (l : List (String × α)) (k : String) : Option α :=
  (l.find? (fun p => p.1 = k)).map (fun p => p.2)

/-- Python dict assignment on a keyed association list. -/
def alistSetKey {α : Type} : List (String × α) → String → α → List (String × α)
  | [], k, v => [(k, v)]
  | p :: rest, k, v =>
      if p.1 = k then (k, v) :: rest else p :: alistSetKey rest k v

/-- One iteration of the rehydration loop: an eligible entry derives a
usage delta against the module's last seen spool snapshot and always
refreshes that snapshot; everything else is skipped. -/
def rehydrateStep (cutoff : ℚ)
    (st : List (String × Obj) × List UsageRow) (e : TraceEntry) :
    List (String × Obj) × List UsageRow :=
  if rehydrateEligible cutoff e then
    let mid := traceModuleOf e
    let spool := (spoolFragOf e.payload).getD []
    let ts := e.timestamp.getD 0
    let delta := derive_spool_usage_delta (alistGetKey st.1 mid)
      (some spool) none
    let rebuilt :=
      match delta with
      | some d => st.2 ++
          [⟨mid, d.delta_edges, d.delta_mm, d.total_used_edges, ts⟩]
      | none => st.2
    (alistSetKey st.1 mid spool, rebuilt)
  else st

/-- The stable sort by recorded_at applied to the rebuilt rows
(Python `list.sort(key=...)`). -/
def insertRowByTime (r : UsageRow) : List UsageRow → List UsageRow
  | [] => [r]
  | x :: xs =>
      if r.recorded_at ≤ x.recorded_at then r :: x :: xs
      else x :: insertRowByTime r xs

def sortRowsByTime (l : List UsageRow) : List UsageRow :=
  l.foldr insertRowByTime []

/-- The tail of the rehydration: sort the rebuilt rows by recording time,
keep the newest MAX_SPOOL_USAGE_ENTRIES, insert them and report their
count; nothing rebuilt reports zero. -/
def rehydrateFinalize (rebuilt : List UsageRow) : List UsageRow × ℕ :=
  if rebuilt.isEmpty then ([], 0)
  else
    if MAX_SPOOL_USAGE_ENTRIES < (sortRowsByTime rebuilt).length then
      ((sortRowsByTime rebuilt).drop
        ((sortRowsByTime rebuilt).length - MAX_SPOOL_USAGE_ENTRIES),
       ((sortRowsByTime rebuilt).drop
        ((sortRowsByTime rebuilt).length - MAX_SPOOL_USAGE_ENTRIES)).length)
    else (sortRowsByTime rebuilt, (sortRowsByTime rebuilt).length)

/-- Model of `rehydrate_spool_usage_history`: a non-empty usage table
short-circuits with zero; otherwise the trace rows (newest first, as
returned by get_ws_trace) are replayed oldest first and the rebuilt rows
are finalized.  The trailing prune is a no-op below the cap. -/
def rehydrate_spool_usage_history (existing : List UsageRow)
    (rows : List TraceEntry) (now window_hours : ℚ) : List UsageRow × ℕ :=
  if !existing.isEmpty then (existing, 0)
  else if rows.isEmpty then (existing, 0)
  else
    rehydrateFinalize
      ((rows.reverse.foldl
        (rehydrateStep (now - window_hours * 3600)) ([], [])).2)

/-- Modelled from the spec, for the refinement comparison: the spool
fragment of the module's most recent considered frame among the already
replayed prefix. -/
def lastEligibleSpool (cutoff : ℚ) (m : String)
    (seen : List TraceEntry) : Option Obj :=
  ((seen.filter (fun e =>
    rehydrateEligible cutoff e && traceModuleOf e = m)).getLast?).map
    (fun e => (spoolFragOf e.payload).getD [])

/-- Modelled from the spec, for the refinement comparison: replay the
trace chronologically; each considered frame contributes the usage row the
Consumable Usage Deriver produces against the module's previously
considered spool fragment. -/
def specReplayGo (cutoff : ℚ) :
    List TraceEntry → List TraceEntry → List UsageRow
  | _, [] => []
  | seen, e :: rest =>
      if rehydrateEligible cutoff e then
        (match derive_spool_usage_delta
            (lastEligibleSpool cutoff (traceModuleOf e) seen)
            (some ((spoolFragOf e.payload).getD [])) none with
        | some d => [⟨traceModuleOf e, d.delta_edges, d.delta_mm,
            d.total_used_edges, e.timestamp.getD 0⟩]
        | none => []) ++ specReplayGo cutoff (seen ++ [e]) rest
      else specReplayGo cutoff (seen ++ [e]) rest

/-- Modelled from the spec: the full chronological replay of a trace
through the deriver. -/
def specReplay (cutoff : ℚ) (tr : List TraceEntry) : List UsageRow :=
  specReplayGo cutoff [] tr

theorem alistGetKey_set_self {α : Type} (l : List (String × α))
    (k : String) (v : α) : alistGetKey (alistSetKey l k v) k = some v := by
  induction l with
  | nil => simp [alistSetKey, alistGetKey, List.find?]
  | cons p rest ih =>
    by_cases hp : p.1 = k
    · simp [alistSetKey, hp, alistGetKey, List.find?]
    · simpa [alistSetKey, hp, alistGetKey, List.find?] using ih

theorem alistGetKey_set_ne {α : Type} (l : List (String × α))
    (k k' : String) (v : α) (h : k' ≠ k) :
    alistGetKey (alistSetKey l k v) k' = alistGetKey l k' := by
  induction l with
  | nil =>
    have hne : (decide (k = k')) = false :=
      decide_eq_false (fun hc => h hc.symm)
    simp [alistSetKey, alistGetKey, List.find?, hne]
  | cons p rest ih =>
    by_cases hp : p.1 = k
    · have hne : (decide (k = k')) = false :=
        decide_eq_false (fun hc => h hc.symm)
      have hpne : (decide (p.1 = k')) = false := by
        rw [hp]; exact hne
      simp [alistSetKey, hp, alistGetKey, List.find?, hne, hpne]
    · by_cases hp' : p.1 = k'
      · simp [alistSetKey, hp, alistGetKey, List.find?, hp', h]
      · simpa [alistSetKey, hp, alistGetKey, List.find?, hp'] using ih

theorem lastEligibleSpool_append_hit (cutoff : ℚ) (seen : List TraceEntry)
    (e : TraceEntry) (he : rehydrateEligible cutoff e = true) :
    lastEligibleSpool cutoff (traceModuleOf e) (seen ++ [e]) =
      some ((spoolFragOf e.payload).getD []) := by
  unfold lastEligibleSpool
  rw [List.filter_append]
  have hpass : List.filter (fun x =>
      rehydrateEligible cutoff x && traceModuleOf x = traceModuleOf e)
      [e] = [e] := by
    simp [List.filter_cons, he]
  rw [hpass]
  rw [List.getLast?_concat]
  rfl

theorem lastEligibleSpool_append_miss (cutoff : ℚ) (seen : List TraceEntry)
    (e : TraceEntry) (m : String)
    (hm : (rehydrateEligible cutoff e && traceModuleOf e = m) = false) :
    lastEligibleSpool cutoff m (seen ++ [e]) =
      lastEligibleSpool cutoff m seen := by
  unfold lastEligibleSpool
  rw [List.filter_append]
  have hdrop : List.filter (fun x =>
      rehydrateEligible cutoff x && traceModuleOf x = m) [e] = [] := by
    simp only [List.filter, hm]
  rw [hdrop, List.append_nil]

theorem rehydrate_fold_eq_spec (cutoff : ℚ) :
    ∀ (tr seen : List TraceEntry) (snaps : List (String × Obj))
      (acc : List UsageRow),
      (∀ m, alistGetKey snaps m = lastEligibleSpool cutoff m seen) →
      (tr.foldl (rehydrateStep cutoff) (snaps, acc)).2 =
        acc ++ specReplayGo cutoff seen tr := by
  intro tr
  induction tr with
  | nil =>
    intro seen snaps acc hinv
    simp [specReplayGo]
  | cons e rest ih =>
    intro seen snaps acc hinv
    by_cases he : rehydrateEligible cutoff e = true
    · have hstep : rehydrateStep cutoff (snaps, acc) e =
          (alistSetKey snaps (traceModuleOf e)
            ((spoolFragOf e.payload).getD []),
           acc ++
             (match derive_spool_usage_delta
                (alistGetKey snaps (traceModuleOf e))
                (some ((spoolFragOf e.payload).getD [])) none with
              | some d => [⟨traceModuleOf e, d.delta_edges, d.delta_mm,
                  d.total_used_edges, e.timestamp.getD 0⟩]
              | none => [])) := by
        simp only [rehydrateStep, he, if_true]
        rcases hd : derive_spool_usage_delta
            (alistGetKey snaps (traceModuleOf e))
            (some ((spoolFragOf e.payload).getD [])) none with _ | d
        · simp [hd]
        · simp [hd]
      have hinv2 : ∀ m, alistGetKey (alistSetKey snaps (traceModuleOf e)
          ((spoolFragOf e.payload).getD [])) m =
          lastEligibleSpool cutoff m (seen ++ [e]) := by
        intro m
        by_cases hm : m = traceModuleOf e
        · rw [hm, alistGetKey_set_self,
            lastEligibleSpool_append_hit cutoff seen e he]
        · rw [alistGetKey_set_ne snaps (traceModuleOf e) m _ hm]
          rw [lastEligibleSpool_append_miss cutoff seen e m
            (by simp [he]; intro hc; exact hm hc.symm)]
          exact hinv m
      have hgo : specReplayGo cutoff seen (e :: rest) =
          (match derive_spool_usage_delta
              (alistGetKey snaps (traceModuleOf e))
              (some ((spoolFragOf e.payload).getD [])) none with
            | some d => [⟨traceModuleOf e, d.delta_edges, d.delta_mm,
                d.total_used_edges, e.timestamp.getD 0⟩]
            | none => []) ++ specReplayGo cutoff (seen ++ [e]) rest := by
        simp only [specReplayGo, he, if_true, hinv (traceModuleOf e)]
      calc ((e :: rest).foldl (rehydrateStep cutoff) (snaps, acc)).2
          = (rest.foldl (rehydrateStep cutoff)
              (rehydrateStep cutoff (snaps, acc) e)).2 := rfl
        _ = acc ++ specReplayGo cutoff seen (e :: rest) := by
            rw [hstep, ih (seen ++ [e]) _ _ hinv2, hgo, List.append_assoc]
    · have he' : rehydrateEligible cutoff e = false := by simpa using he
      have hstep : rehydrateStep cutoff (snaps, acc) e = (snaps, acc) := by
        simp [rehydrateStep, he']
      have hinv2 : ∀ m, alistGetKey snaps m =
          lastEligibleSpool cutoff m (seen ++ [e]) := by
        intro m
        rw [lastEligibleSpool_append_miss cutoff seen e m (by simp [he'])]
        exact hinv m
      have hgo : specReplayGo cutoff seen (e :: rest) =
          specReplayGo cutoff (seen ++ [e]) rest := by
        simp only [specReplayGo, he', Bool.false_eq_true, if_false]
      calc ((e :: rest).foldl (rehydrateStep cutoff) (snaps, acc)).2
          = (rest.foldl (rehydrateStep cutoff)
              (rehydrateStep cutoff (snaps, acc) e)).2 := rfl
        _ = acc ++ specReplayGo cutoff seen (e :: rest) := by
            rw [hstep, ih (seen ++ [e]) _ _ hinv2, hgo]

/-- The timestamps of the frames the rehydration considers, in trace
order. -/
def eligTimes (cutoff : ℚ) (tr : List TraceEntry) : List ℚ :=
  tr.filterMap (fun e =>
    if rehydrateEligible cutoff e then some (e.timestamp.getD 0) else none)

theorem rehydrate_fold_times_sublist (cutoff : ℚ) :
    ∀ (tr : List TraceEntry) (snaps : List (String × Obj))
      (acc : List UsageRow),
      List.Sublist
        (((tr.foldl (rehydrateStep cutoff) (snaps, acc)).2).map
          (fun r => r.recorded_at))
        (acc.map (fun r => r.recorded_at) ++ eligTimes cutoff tr) := by
  intro tr
  induction tr with
  | nil =>
    intro snaps acc
    simp [eligTimes]
  | cons e rest ih =>
    intro snaps acc
    by_cases he : rehydrateEligible cutoff e = true
    · have helig : eligTimes cutoff (e :: rest) =
          e.timestamp.getD 0 :: eligTimes cutoff rest := by
        simp [eligTimes, List.filterMap_cons, he]
      rw [helig]
      rcases hd : derive_spool_usage_delta
          (alistGetKey snaps (traceModuleOf e))
          (some ((spoolFragOf e.payload).getD [])) none with _ | d
      · have hstep : rehydrateStep cutoff (snaps, acc) e =
            (alistSetKey snaps (traceModuleOf e)
              ((spoolFragOf e.payload).getD []), acc) := by
          simp [rehydrateStep, he, hd]
        have : ((e :: rest).foldl (rehydrateStep cutoff) (snaps, acc)).2 =
            ((rest.foldl (rehydrateStep cutoff)
              (rehydrateStep cutoff (snaps, acc) e)).2) := rfl
        rw [this, hstep]
        refine (ih _ acc).trans ?_
        apply List.Sublist.append_left
        exact List.sublist_cons_self _ _
      · have hstep : rehydrateStep cutoff (snaps, acc) e =
            (alistSetKey snaps (traceModuleOf e)
              ((spoolFragOf e.payload).getD []),
             acc ++ [⟨traceModuleOf e, d.delta_edges, d.delta_mm,
               d.total_used_edges, e.timestamp.getD 0⟩]) := by
          simp [rehydrateStep, he, hd]
        have : ((e :: rest).foldl (rehydrateStep cutoff) (snaps, acc)).2 =
            ((rest.foldl (rehydrateStep cutoff)
              (rehydrateStep cutoff (snaps, acc) e)).2) := rfl
        rw [this, hstep]
        refine (ih _ _).trans ?_
        rw [List.map_append]
        simp only [List.map_cons, List.map_nil, List.append_assoc,
          List.singleton_append]
        exact List.Sublist.refl _
    · have he' : rehydrateEligible cutoff e = false := by simpa using he
      have helig : eligTimes cutoff (e :: rest) = eligTimes cutoff rest := by
        simp [eligTimes, List.filterMap_cons, he']
      have hstep : rehydrateStep cutoff (snaps, acc) e = (snaps, acc) := by
        simp [rehydrateStep, he']
      have : ((e :: rest).foldl (rehydrateStep cutoff) (snaps, acc)).2 =
          ((rest.foldl (rehydrateStep cutoff)
            (rehydrateStep cutoff (snaps, acc) e)).2) := rfl
      rw [this, hstep, helig]
      exact ih _ _

theorem eligTimes_eq_map_filter (cutoff : ℚ) (tr : List TraceEntry) :
    eligTimes cutoff tr =
      (tr.filter (rehydrateEligible cutoff)).map
        (fun e => e.timestamp.getD 0) := by
  induction tr with
  | nil => rfl
  | cons e rest ih =>
    by_cases he : rehydrateEligible cutoff e = true
    · simp [eligTimes, List.filterMap_cons, List.filter_cons, he] at ih ⊢
      exact ih
    · have he' : rehydrateEligible cutoff e = false := by simpa using he
      simp [eligTimes, List.filterMap_cons, List.filter_cons, he'] at ih ⊢
      exact ih

theorem eligTimes_pairwise (cutoff : ℚ) (tr : List TraceEntry)
    (h : List.Pairwise (fun a b : TraceEntry =>
      a.timestamp.getD 0 ≤ b.timestamp.getD 0) tr) :
    List.Pairwise (fun a b : ℚ => a ≤ b) (eligTimes cutoff tr) := by
  rw [eligTimes_eq_map_filter]
  rw [List.pairwise_map]
  exact List.Pairwise.sublist (List.filter_sublist tr) h

theorem insertRowByTime_le_head (r : UsageRow) (l : List UsageRow)
    (h : ∀ x ∈ l, r.recorded_at ≤ x.recorded_at) :
    insertRowByTime r l = r :: l := by
  cases l with
  | nil => rfl
  | cons x xs =>
    have := h x (by simp)
    simp [insertRowByTime, this]

theorem sortRowsByTime_eq_self (l : List UsageRow)
    (h : List.Pairwise (fun a b : UsageRow =>
      a.recorded_at ≤ b.recorded_at) l) :
    sortRowsByTime l = l := by
  induction l with
  | nil => rfl
  | cons r rest ih =>
    rcases List.pairwise_cons.mp h with ⟨hall, hrest⟩
    have : sortRowsByTime (r :: rest) =
        insertRowByTime r (sortRowsByTime rest) := rfl
    rw [this, ih hrest, insertRowByTime_le_head r rest hall]

/-- Claim C5: rehydration runs only when the usage log is empty, and on an
empty usage log with a chronologically recorded trace (the trace rows
arrive newest first from the trace store) it rebuilds, up to the retention
cap, exactly the rows obtained by replaying the considered frames
chronologically through the deriver, per module, and reports their
count.  Considered frames are the rx status frames with a usable spool
fragment, a parseable timestamp within the rehydration window and a
resolvable module id. -/
theorem rehydrate_spool_usage_history_spec :
    (∀ (existing : List UsageRow) (rows : List TraceEntry)
      (now window_hours : ℚ),
      existing ≠ [] →
      rehydrate_spool_usage_history existing rows now window_hours =
        (existing, 0)) ∧
    (∀ (rows : List TraceEntry) (now window_hours : ℚ),
      List.Pairwise (fun a b : TraceEntry =>
        a.timestamp.getD 0 ≤ b.timestamp.getD 0) rows.reverse →
      (specReplay (now - window_hours * 3600) rows.reverse).length ≤
        MAX_SPOOL_USAGE_ENTRIES →
      rehydrate_spool_usage_history [] rows now window_hours =
        (specReplay (now - window_hours * 3600) rows.reverse,
         (specReplay (now - window_hours * 3600) rows.reverse).length)) := by
  constructor
  · intro existing rows now wh hne
    have : existing.isEmpty = false := by
      cases existing with
      | nil => exact absurd rfl hne
      | cons x xs => rfl
    simp [rehydrate_spool_usage_history, this]
  · intro rows now wh hchron hcap
    set cutoff := now - wh * 3600 with hcut
    have hfold : ((rows.reverse.foldl (rehydrateStep cutoff) ([], [])).2) =
        specReplay cutoff rows.reverse := by
      have := rehydrate_fold_eq_spec cutoff rows.reverse [] [] []
        (fun m => rfl)
      simpa [specReplay] using this
    have hsorted : List.Pairwise (fun a b : UsageRow =>
        a.recorded_at ≤ b.recorded_at)
        ((rows.reverse.foldl (rehydrateStep cutoff) ([], [])).2) := by
      have hsub := rehydrate_fold_times_sublist cutoff rows.reverse [] []
      simp only [List.map_nil, List.nil_append] at hsub
      have hpw := eligTimes_pairwise cutoff rows.reverse hchron
      have := List.Pairwise.sublist hsub hpw
      exact (List.pairwise_map).mp this
    have hfin : rehydrateFinalize
        ((rows.reverse.foldl (rehydrateStep cutoff) ([], [])).2) =
        (specReplay cutoff rows.reverse,
         (specReplay cutoff rows.reverse).length) := by
      rcases hreb : (rows.reverse.foldl (rehydrateStep cutoff)
          ([], [])).2 with _ | ⟨b0, brest⟩
      · have hspec : specReplay cutoff rows.reverse = [] := by
          rw [← hfold, hreb]
        rw [hspec]
        rfl
      · have hsorteq : sortRowsByTime (b0 :: brest) = b0 :: brest := by
          apply sortRowsByTime_eq_self
          rw [← hreb]
          exact hsorted
        have hlen : ¬ MAX_SPOOL_USAGE_ENTRIES < (b0 :: brest).length := by
          apply not_lt.mpr
          rw [← hreb, hfold]
          exact hcap
        unfold rehydrateFinalize
        rw [if_neg (by simp), hsorteq, if_neg hlen, ← hreb, hfold]
    rcases hrows : rows with _ | ⟨r0, rrest⟩
    · have hspec : specReplay cutoff ([] : List TraceEntry).reverse = [] := rfl
      simp [rehydrate_spool_usage_history, specReplay, specReplayGo]
    · have hrowsne : rows.isEmpty = false := by
        rw [hrows]; rfl
      rw [← hrows]
      show (if !(List.isEmpty ([] : List UsageRow)) = true then
          (([] : List UsageRow), 0)
        else if rows.isEmpty = true then (([] : List UsageRow), 0)
        else rehydrateFinalize
          ((rows.reverse.foldl
            (rehydrateStep (now - wh * 3600)) ([], [])).2)) =
        (specReplay cutoff rows.reverse,
         (specReplay cutoff rows.reverse).length)
      rw [if_neg (by simp), if_neg (by simp [hrowsne]), ← hcut, hfin]

/-- A single chronological rx status trace row used to exercise the
rehydration path. -/
def rehydrateDemoEntry : TraceEntry :=
  ⟨"rx", some "m1",
    [("type", JVal.str "status"),
     ("spool", JVal.obj
       [("used_edges", JVal.num 10), ("full_edges", JVal.num 100)])],
    some 100⟩

/-- Witness for claim C5: a populated usage log short-circuits the
rehydration with zero, and on an empty log a one-frame trace rebuilds
exactly the chronological replay of that trace. -/
theorem rehydrate_spool_usage_history_spec_witness :
    rehydrate_spool_usage_history [⟨"m1", 1, 500, 10, 0⟩]
      [rehydrateDemoEntry] 200 1 = ([⟨"m1", 1, 500, 10, 0⟩], 0) ∧
    rehydrate_spool_usage_history [] [rehydrateDemoEntry] 200 1 =
      (specReplay ((200 : ℚ) - 1 * 3600) [rehydrateDemoEntry].reverse,
       (specReplay ((200 : ℚ) - 1 * 3600)
         [rehydrateDemoEntry].reverse).length) := by
  constructor
  · exact rehydrate_spool_usage_history_spec.1 [⟨"m1", 1, 500, 10, 0⟩]
      [rehydrateDemoEntry] 200 1 (by simp)
  · apply rehydrate_spool_usage_history_spec.2 [rehydrateDemoEntry] 200 1
    · simp
    · have hc : (200 : ℚ) - 1 * 3600 = -3400 := by norm_num
      rw [List.reverse_singleton, hc]
      have hspec : specReplay (-3400) [rehydrateDemoEntry] = [] := by
        have helig : rehydrateEligible (-3400) rehydrateDemoEntry = true := by
          decide
        simp only [specReplay, specReplayGo, helig, if_true]
        rfl
      rw [hspec]
      simp [MAX_SPOOL_USAGE_ENTRIES]
